import Mathlib

/-!
Verification development for the product-matching core of `united_try.py`.

The Python matching engine (`extract_weight`, `extract_product_details`,
`ProductMatcher.calculate_match_score`, `ProductMatcher.find_best_match`)
is embedded shallowly below.  Modelling conventions:

* Python strings are modelled as `List Char` (`Str`); the public API
  functions take `String` and convert via `.toList`.  Only ASCII casing
  matters for the inputs the matcher handles.
* Python `float` arithmetic is modelled by exact rational arithmetic (`ℚ`);
  `int(x * 0.10)` on a nonnegative integer `x` is modelled as `x / 10`
  (natural floor division), and similarly for the other percentage
  truncations.  Decimal literals are exact rationals.
* `rapidfuzz.fuzz.token_sort_ratio` is the normalized Indel similarity of
  the token-sorted strings: `200 * lcs / (len1 + len2)` as a rational
  (100 when both strings are empty), matching rapidfuzz's
  `1 - dist/(len1+len2)` with `dist = len1 + len2 - 2*lcs`.
* The matcher is modelled with no WebDriver attached (`driver = None`), so
  `_fetch_product_page_details` always returns `{}`; consequently the
  combined candidate text used by the checks is always
  `normalize_text(result.title)`.
* `ProductMatcher.__init__` (united_try.py:2414) assigns only `config`,
  `fuzzy_threshold` and `driver`; `self.ml_enabled` is never assigned
  anywhere, so the read at united_try.py:2913 raises `AttributeError` on
  EVERY call of `calculate_match_score`, before its single `return` at
  line 2950.  `find_best_match` therefore raises whenever the source
  description, the variants and the candidate list are all nonempty
  (the main pass calls the scorer at line 3101, and otherwise the
  fallback does, unconditionally, at line 3847).  Crashing computations
  are modelled by `PyResult` (`ok` / `raises`); the pure scoring
  machinery below embeds the value the traditional branch would compute,
  which parameterizes the loop skeleton on branches that only
  description-free runs reach without raising.
* Inside `find_best_match` the statements `import re` (united_try.py:3760,
  4028) make `re` a local variable of the whole function, so a
  description-free run that scans a candidate whose text contains an
  accessory keyword (united_try.py:3027 runs `re.escape` first) raises
  `UnboundLocalError`; this is modelled by `accessoryScanCrash`.
* The regexes of the source are implemented as dedicated scanners that
  mirror Python `re.search` semantics (leftmost match, greedy/lazy
  quantifiers, `IGNORECASE` where the source passes it) on the inputs the
  matcher feeds them.
-/

namespace NPD

/-- Python strings, modelled as lists of characters. -/
abbrev Str := List Char

/-- ASCII lower-casing of one character (Python `str.lower` on the
matcher's inputs). -/
def lowerChar (c : Char) : Char :=
  if 'A' ≤ c ∧ c ≤ 'Z' then Char.ofNat (c.toNat + 32) else c

/-- Python `str.lower()`. -/
def pyLower (s : Str) : Str := s.map lowerChar

/-- ASCII upper-casing of one character. -/
def upperChar (c : Char) : Char :=
  if 'a' ≤ c ∧ c ≤ 'z' then Char.ofNat (c.toNat - 32) else c

/-- Python `str.upper()`. -/
def pyUpper (s : Str) : Str := s.map upperChar

/-- Python `str.capitalize()`: first character upper-cased, rest lower-cased. -/
def pyCapitalize (s : Str) : Str :=
  match s with
  | [] => []
  | c :: cs => upperChar c :: pyLower cs

/-- Characters Python's `\s` matches (the whitespace the inputs contain). -/
def isSpaceChar (c : Char) : Bool :=
  c = ' ' ∨ c = '\t' ∨ c = '\n' ∨ c = '\r' ∨ c = '\x0b' ∨ c = '\x0c'

/-- Characters Python's `\w` matches on the matcher's ASCII inputs. -/
def isWordChar (c : Char) : Bool :=
  ('a' ≤ c ∧ c ≤ 'z') ∨ ('A' ≤ c ∧ c ≤ 'Z') ∨ ('0' ≤ c ∧ c ≤ '9') ∨ c = '_'

/-- ASCII decimal digit (Python `\d` on the matcher's inputs). -/
def isDigitChar (c : Char) : Bool := '0' ≤ c ∧ c ≤ '9'

/-- Python `str.strip()`. -/
def pyStrip (s : Str) : Str :=
  (s.dropWhile isSpaceChar).reverse.dropWhile isSpaceChar |>.reverse

/-- Helper for `pySplitWs`: `cur` is the (reversed) token being built. -/
def pySplitWsAux : Str → Str → List Str
  | [], cur => if cur = [] then [] else [cur.reverse]
  | c :: cs, cur =>
    if isSpaceChar c then
      if cur = [] then pySplitWsAux cs []
      else cur.reverse :: pySplitWsAux cs []
    else pySplitWsAux cs (c :: cur)

/-- Python `str.split()` with no separator: split on whitespace runs,
discarding empty pieces. -/
def pySplitWs (s : Str) : List Str := pySplitWsAux s []

/-- Python `hay.find(needle)`: index of the first occurrence, or `none`
(the source only uses `find` after an `in` guard, except where it compares
with `-1`, which we model with `Option`). -/
def pyFind (hay needle : Str) : Option Nat :=
  match hay with
  | [] => if needle = [] then some 0 else none
  | _ :: t =>
    if needle.isPrefixOf hay then some 0
    else (pyFind t needle).map (· + 1)

/-- Python `needle in hay` for strings (substring containment). -/
def subStr (needle hay : Str) : Bool := (pyFind hay needle).isSome

/-- Helper for `pySplitOn`: `cur` is the (reversed) current piece; the
fuel argument (the remaining length) keeps the recursion structural. -/
def pySplitOnAux (sep : Str) : Nat → Str → Str → List Str
  | _, [], cur => [cur.reverse]
  | 0, c :: cs, cur => [cur.reverse ++ c :: cs]
  | fuel + 1, c :: cs, cur =>
    if sep ≠ [] ∧ sep.isPrefixOf (c :: cs) then
      cur.reverse :: pySplitOnAux sep fuel ((c :: cs).drop sep.length) []
    else pySplitOnAux sep fuel cs (c :: cur)

/-- Python `s.split(sep)` for a nonempty separator string. -/
def pySplitOn (s sep : Str) : List Str := pySplitOnAux sep s.length s []

/-- Python `s.split(sep, 1)`: split only at the first occurrence. -/
def pySplitOnce (s sep : Str) : List Str :=
  match pyFind s sep with
  | none => [s]
  | some i => [s.take i, s.drop (i + sep.length)]

/-- Python `s.rsplit(sep, 1)`: split only at the last occurrence. -/
def pyRSplitOnce (s sep : Str) : List Str :=
  match pyFind s.reverse sep.reverse with
  | none => [s]
  | some i =>
    let cut := s.length - i - sep.length
    [s.take cut, s.drop (cut + sep.length)]

/-- Python `str.isdigit()` on ASCII (true iff nonempty and all digits). -/
def pyIsDigit (s : Str) : Bool := s ≠ [] ∧ s.all isDigitChar

/-- `normalize_text` (united_try.py:381): lower-case, replace every
non-word non-space character by a space, collapse whitespace, strip. -/
def normalize_text (s : Str) : Str :=
  let replaced := (pyLower s).map fun c =>
    if isWordChar c ∨ isSpaceChar c then c else ' '
  " ".toList.intercalate (pySplitWs replaced)

/-- Longest common subsequence length, by row dynamic programming. -/
def lcsLen (a b : List Char) : Nat :=
  let step : List Nat → Char → List Nat := fun row x =>
    -- row has length b.length+1: row[j] = lcs of (processed prefix of a) and (b.take j)
    let rec go : List Nat → List Char → Nat → Nat → List Nat
      | _, [], _, _ => []
      | [], _, _, _ => []
      | prev :: prest, y :: ys, diag, left =>
        let cur := if x = y then diag + 1 else max prev left
        cur :: go prest ys prev cur
    0 :: go row.tail b (row.headD 0) 0
  (a.foldl step (List.replicate (b.length + 1) 0)).getLastD 0

/-- rapidfuzz `fuzz.ratio`: normalized Indel similarity scaled to 0‥100,
as an exact rational. -/
def fuzzRatio (s1 s2 : Str) : ℚ :=
  if s1.length + s2.length = 0 then 100
  else (200 * lcsLen s1 s2 : ℚ) / (s1.length + s2.length : ℚ)

/-- Code-point lexicographic order on strings (Python `<` on `str`). -/
def strLt : Str → Str → Bool
  | [], [] => false
  | [], _ :: _ => true
  | _ :: _, [] => false
  | a :: as, b :: bs =>
    if a.toNat < b.toNat then true
    else if b.toNat < a.toNat then false
    else strLt as bs

/-- Stable ascending insertion for `sortStrs`. -/
def insertSorted (x : Str) : List Str → List Str
  | [] => [x]
  | y :: ys => if strLt y x then y :: insertSorted x ys else x :: y :: ys

/-- Python `sorted` on a token list (ascending code-point order; ties are
identical strings, so stability is immaterial). -/
def sortStrs (l : List Str) : List Str := l.foldr insertSorted []

/-- Sort Python string tokens and re-join with single spaces, as
rapidfuzz's token-sort preprocessing does. -/
def tokenSortJoin (s : Str) : Str :=
  " ".toList.intercalate (sortStrs (pySplitWs s))

/-- rapidfuzz `fuzz.token_sort_ratio`. -/
def token_sort_ratio (s1 s2 : Str) : ℚ :=
  fuzzRatio (tokenSortJoin s1) (tokenSortJoin s2)

/-! ### Regex scanners

Each scanner mirrors one `re.search` call of the source: leftmost match,
greedy/lazy quantifier order, `IGNORECASE` where the source passes it.
`searchFrom f s` applies the at-position matcher `f` to every suffix of
`s`, left to right. -/

/-- Leftmost-match driver: try the at-position matcher on every suffix. -/
def searchFrom (f : Str → Option α) : Str → Option α
  | [] => f []
  | c :: cs =>
    match f (c :: cs) with
    | some a => some a
    | none => searchFrom f cs

/-- Case-insensitive literal: `lit` (given lower-case) must begin the
suffix; returns the rest. -/
def eatCi (lit : Str) (s : Str) : Option Str :=
  if lit.isPrefixOf (pyLower (s.take lit.length)) then some (s.drop lit.length)
  else none

/-- Case-sensitive literal prefix; returns the rest. -/
def eatLit (lit : Str) (s : Str) : Option Str :=
  if lit.isPrefixOf s then some (s.drop lit.length) else none

/-- Optional single character from a set (regex `[®™]?`). -/
def eatOptChar (cs : List Char) (s : Str) : Str :=
  match s with
  | c :: rest => if c ∈ cs then rest else s
  | [] => s

/-- Lazy one-or-more character-class group with a tail test (regex
`([cls]+?)(?:tail)`): the shortest nonempty all-`cls` prefix whose
remainder satisfies `tl`. -/
def lazyGroup (cls : Char → Bool) (tl : Str → Bool) : Str → Option Str
  | [] => none
  | c :: cs =>
    if cls c then
      if tl cs then some [c]
      else (lazyGroup cls tl cs).map (c :: ·)
    else none

/-- Greedy `\s+` followed by a lazy class group (regex
`\s+([cls]+?)(?:tail)`): whitespace runs are tried longest first, as the
greedy `\s+` backtracks. -/
def wsThenLazyAux (cls : Char → Bool) (tl : Str → Bool) (s : Str) :
    Nat → Option Str
  | 0 => none
  | k + 1 =>
    match lazyGroup cls tl (s.drop (k + 1)) with
    | some g => some g
    | none => wsThenLazyAux cls tl s k

def wsThenLazy (cls : Char → Bool) (tl : Str → Bool) (s : Str) : Option Str :=
  wsThenLazyAux cls tl s (s.takeWhile isSpaceChar).length

/-- Greedy maximal run of `cls` followed by the case-insensitive literal
`lit` (regex `[cls]*lit` where `lit`'s first character is not in `cls`);
returns the rest after `lit`. -/
def eatClassStarLit (cls : Char → Bool) (lit : Str) (s : Str) : Option Str :=
  eatCi lit (s.dropWhile cls)

/-- Regex `[cls]*lit` where `lit`'s characters may themselves lie in
`cls` (backtracking membership test). -/
def classStarThen (cls : Char → Bool) (lit : Str) : Str → Bool
  | [] => (eatCi lit []).isSome
  | c :: cs => (eatCi lit (c :: cs)).isSome || (cls c && classStarThen cls lit cs)

/-- ASCII letter. -/
def isLetterChar (c : Char) : Bool := ('a' ≤ c ∧ c ≤ 'z') ∨ ('A' ≤ c ∧ c ≤ 'Z')

/-- Letter or whitespace (regex `[A-Za-z\s]`). -/
def isLetterSpace (c : Char) : Bool := isLetterChar c ∨ isSpaceChar c

/-- Letter, digit or whitespace (regex `[A-Za-z0-9\s]`). -/
def isAlnumSpace (c : Char) : Bool :=
  isLetterChar c ∨ isDigitChar c ∨ isSpaceChar c

/-- Digits of a `Str` as a natural number. -/
def digitsToNat (s : Str) : Nat :=
  s.foldl (fun acc c => acc * 10 + (c.toNat - '0'.toNat)) 0

/-- `\b<w>\b` for a word `w` of word-characters (`re.escape`d whole-word
search used for lens colors). -/
def wholeWordAux (w : Str) (prev : Option Char) : Str → Bool
  | [] => false
  | c :: cs =>
    ((match prev with
        | some p => ! isWordChar p
        | none => true) &&
      w.isPrefixOf (c :: cs) &&
      (match (c :: cs).drop w.length with
        | [] => true
        | n :: _ => ! isWordChar n)) ||
    wholeWordAux w (some c) cs

def wholeWord (w : Str) (s : Str) : Bool := wholeWordAux w none s

/-- `\b` + literal + `\s+` + alternation of literals (accessory pattern
`\b<kw>\s+(?:for|compatible)`), tracking the char before the match for
the left boundary. -/
def boundLitWsAltAux (kw : Str) (alts : List Str) (prev : Option Char) :
    Str → Bool
  | [] => false
  | c :: cs =>
    ((match prev with
        | some p => ! isWordChar p
        | none => true) &&
      (match eatCi kw (c :: cs) with
        | some r =>
          let r' := r.dropWhile isSpaceChar
          decide (r'.length < r.length) && alts.any fun a => (eatCi a r').isSome
        | none => false)) ||
    boundLitWsAltAux kw alts (some c) cs

/-- Literal + `\s+` + alternation of literals (no left boundary). -/
def litWsAlt (kw : Str) (alts : List Str) (s : Str) : Bool :=
  (searchFrom (fun t =>
    match eatCi kw t with
    | some r =>
      let r' := r.dropWhile isSpaceChar
      if r'.length < r.length ∧ alts.any (fun a => (eatCi a r').isSome)
      then some () else none
    | none => none) s).isSome

/-- `(\d+\.?\d*)` at a position: maximal digit run, optional dot, maximal
digit run; value as an exact rational. -/
def numAt (s : Str) : Option (ℚ × Str) :=
  match s with
  | c :: _ =>
    if isDigitChar c then
      let d1 := s.takeWhile isDigitChar
      let r1 := s.dropWhile isDigitChar
      match r1 with
      | '.' :: r2 =>
        let d2 := r2.takeWhile isDigitChar
        let r3 := r2.dropWhile isDigitChar
        some ((digitsToNat d1 : ℚ) + (digitsToNat d2 : ℚ) / (10 ^ d2.length : ℚ), r3)
      | _ => some ((digitsToNat d1 : ℚ), r1)
    else none
  | [] => none

/-- Tail `\s*-?\s*oz` (case-insensitive). -/
def tailOz (s : Str) : Bool :=
  let r1 := s.dropWhile isSpaceChar
  let r2 := match r1 with
    | '-' :: t => t.dropWhile isSpaceChar
    | _ => r1
  (eatCi "oz".toList r2).isSome

/-- `re.search(r'(\d+\.?\d*)\s*-?\s*oz', s, re.IGNORECASE)`: the captured
number. -/
def reWeightOz (s : Str) : Option ℚ :=
  searchFrom (fun t =>
    match numAt t with
    | some (v, rest) => if tailOz rest then some v else none
    | none => none) s

/-- `re.search(r'(\d+\.?\d*)\s*ounce', s, re.IGNORECASE)`. -/
def reWeightOunce (s : Str) : Option ℚ :=
  searchFrom (fun t =>
    match numAt t with
    | some (v, rest) =>
      if (eatCi "ounce".toList (rest.dropWhile isSpaceChar)).isSome
      then some v else none
    | none => none) s

/-- `extract_weight` (united_try.py:2047): first pattern that matches
anywhere wins. -/
def extract_weight (product_name : Str) : Option ℚ :=
  match reWeightOz product_name with
  | some v => some v
  | none => reWeightOunce product_name

/-- `(\d+)\s*LIT` (case-insensitive): captured integer. -/
def reNumWsLit (lit : Str) (s : Str) : Option Nat :=
  searchFrom (fun t =>
    match t with
    | c :: _ =>
      if isDigitChar c then
        let d := t.takeWhile isDigitChar
        let r := (t.dropWhile isDigitChar).dropWhile isSpaceChar
        if (eatCi lit r).isSome then some (digitsToNat d) else none
      else none
    | [] => none) s

/-- `pack\s*of\s*(\d+)` (case-insensitive). -/
def rePackOf (s : Str) : Option Nat :=
  searchFrom (fun t =>
    match eatCi "pack".toList t with
    | some r1 =>
      match eatCi "of".toList (r1.dropWhile isSpaceChar) with
      | some r2 =>
        let r3 := r2.dropWhile isSpaceChar
        let d := r3.takeWhile isDigitChar
        if d = [] then none else some (digitsToNat d)
      | none => none
    | none => none) s

/-- The count patterns of the source, tried in order (`(\d+)\s*ct`,
`(\d+)\s*count`, `pack\s*of\s*(\d+)`, `(\d+)\s*pieces`): first pattern
that matches anywhere wins. -/
def extractCount (s : Str) : Option Nat :=
  match reNumWsLit "ct".toList s with
  | some n => some n
  | none =>
    match reNumWsLit "count".toList s with
    | some n => some n
    | none =>
      match rePackOf s with
      | some n => some n
      | none => reNumWsLit "pieces".toList s

/-- The count patterns of the terminal acceptance gate (united_try.py:4033),
which omit the `pieces` pattern. -/
def extractCountGate (s : Str) : Option Nat :=
  match reNumWsLit "ct".toList s with
  | some n => some n
  | none =>
    match reNumWsLit "count".toList s with
    | some n => some n
    | none => rePackOf s

/-- `re.search(r'Gen\s*(\d+)', s, re.IGNORECASE)`: captured digit string. -/
def reGenNum (s : Str) : Option Str :=
  searchFrom (fun t =>
    match eatCi "gen".toList t with
    | some r =>
      let r' := r.dropWhile isSpaceChar
      let d := r'.takeWhile isDigitChar
      if d = [] then none else some d
    | none => none) s

/-- `re.search(r'gen\s*1\b', s)`. -/
def reGen1Bound (s : Str) : Bool :=
  (searchFrom (fun t =>
    match eatCi "gen".toList t with
    | some r =>
      match r.dropWhile isSpaceChar with
      | '1' :: rest =>
        (match rest with
          | [] => some ()
          | n :: _ => if isWordChar n then none else some ())
      | _ => none
    | none => none) s).isSome

/-- Tail `(?:\s+lenses?|,|$)` — note the source's `lenses?` literally
matches `lense` with an optional final `s`. -/
def tailWsLenseCommaEnd (s : Str) : Bool :=
  (let r := s.dropWhile isSpaceChar
   decide (r.length < s.length) && (eatCi "lense".toList r).isSome) ||
  (match s with | ',' :: _ => true | _ => false) ||
  s.isEmpty

/-- Tail `(?:\s+lenses?|,|$|\))`. -/
def tailWsLenseCommaEndParen (s : Str) : Bool :=
  tailWsLenseCommaEnd s || (match s with | ')' :: _ => true | _ => false)

/-- Tail `(?:\s*[,)]|$)`. -/
def tailWsCommaParenEnd (s : Str) : Bool :=
  (match s.dropWhile isSpaceChar with
    | ',' :: _ => true
    | ')' :: _ => true
    | _ => false) ||
  s.isEmpty

/-- Tail `(?:\s*[/\)]|$)`. -/
def tailWsSlashParenEnd (s : Str) : Bool :=
  (match s.dropWhile isSpaceChar with
    | '/' :: _ => true
    | ')' :: _ => true
    | _ => false) ||
  s.isEmpty

/-- `MARKER[®™]?\s+([cls]+?)(?:tail)` (case-insensitive): captured group. -/
def markerLazySearch (marker : Str) (cls : Char → Bool) (tl : Str → Bool)
    (s : Str) : Option Str :=
  searchFrom (fun t =>
    match eatCi marker t with
    | some r => wsThenLazy cls tl (eatOptChar ['®', '™'] r)
    | none => none) s

/-- `MARKER[®™]?\s+([a-z]+)` (case-insensitive): a greedy letter run. -/
def markerGreedyLetters (marker : Str) (s : Str) : Option Str :=
  searchFrom (fun t =>
    match eatCi marker t with
    | some r =>
      let r1 := eatOptChar ['®', '™'] r
      let r2 := r1.dropWhile isSpaceChar
      if r2.length < r1.length then
        let d := r2.takeWhile isLetterChar
        if d = [] then none else some d
      else none
    | none => none) s

/-- `,\s*([A-Za-z]+)\s+LIT` (case-insensitive): captured letter run. -/
def commaLettersWsLit (lit : Str) (s : Str) : Option Str :=
  searchFrom (fun t =>
    match t with
    | ',' :: r =>
      let r1 := r.dropWhile isSpaceChar
      let g := r1.takeWhile isLetterChar
      if g = [] then none
      else
        let r2 := r1.drop g.length
        let r3 := r2.dropWhile isSpaceChar
        if r3.length < r2.length ∧ (eatCi lit r3).isSome then some g else none
    | _ => none) s

/-- `([A-Za-z\s]+?)\s+lenses?` (case-insensitive): lazy letters/whitespace
group followed by whitespace and `lense(s)`. -/
def lazyLettersWsLense (s : Str) : Option Str :=
  searchFrom (fun t =>
    lazyGroup isLetterSpace
      (fun r =>
        let r' := r.dropWhile isSpaceChar
        r'.length < r.length ∧ (eatCi "lense".toList r').isSome) t) s

/-- `re.search(r'\(Gen\s*(\d+)\)', s, re.IGNORECASE)`. -/
def reGenParen (s : Str) : Option Str :=
  searchFrom (fun t =>
    match t with
    | '(' :: r =>
      match eatCi "gen".toList r with
      | some r2 =>
        let r3 := r2.dropWhile isSpaceChar
        let d := r3.takeWhile isDigitChar
        if (!d.isEmpty) && (match r3.drop d.length with | ')' :: _ => true | _ => false)
        then some d else none
      | none => none
    | _ => none) s

/-! ### `extract_product_details` (united_try.py:2070) -/

/-- The `ProductAttributes`-style record built by `extract_product_details`
(`simple_lens_color` is a dynamically added key in Python, modelled as an
always-present field defaulting to the empty string). -/
structure Details where
  brand : Str := []
  model : Str := []
  color : Str := []
  lens : Str := []
  size : Str := []
  weight : Option ℚ := none
  generation : Str := []
  transitions_color : Str := []
  prizm_color : Str := []
  frame_color : Str := []
  lens_color : Str := []
  lens_type : Str := []
  low_bridge_fit : Bool := false
  flavor : Str := []
  count : Option Nat := none
  full_text : Str := []
  simple_lens_color : Str := []
  deriving Repr, DecidableEq

/-- The flavor vocabulary of the source, in scan order.  (The source's
multi-word/single-word branches both assign the keyword itself, so the
first substring hit wins either way.) -/
def flavor_keywords : List Str :=
  ["patriotic", "red white blue", "holiday", "christmas", "valentine",
   "easter", "peanut", "peanut butter", "almond", "original", "fruity",
   "variety", "assorted", "mix", "mixed", "minis", "fun size", "full size",
   "king size", "share size", "singles size", "party size", "wint-o-green",
   "peppermint", "spearmint", "bubblemint", "cobalt", "rain"].map
    String.toList

/-- Flavor extraction: first keyword that occurs in the lower-cased name. -/
def extractFlavor (product_name : Str) : Str :=
  let lower := pyLower product_name
  ((flavor_keywords.find? fun kw => subStr kw lower).getD [])

/-- Count extraction of `extract_product_details`: first of the four count
patterns that matches the raw name (case-insensitively). -/
def extractCountDetails (product_name : Str) : Option Nat :=
  extractCount product_name

/-- Brand: text before the first `|`, stripped and normalized. -/
def extractBrand (product_name : Str) : Str :=
  if subStr "|".toList product_name then
    normalize_text (pyStrip ((pySplitOn product_name "|".toList).headD []))
  else []

/-- The closing keywords the model phrase is cut at when the after-pipe
text has no dash (checked in this fixed order, case-sensitively; a match
at index 0 is skipped). -/
def model_end_patterns : List Str :=
  ["Glasses", "Sunglasses", "Eyewear", "with", ",", "(", "-"].map String.toList

/-- Cut `after_brand` at the first listed keyword occurring at a positive
index; if no keyword cuts, the whole text is kept. -/
def cutAtModelEnd (after : Str) : Str :=
  match model_end_patterns.find? fun p =>
      subStr p after ∧ (pyFind after p).getD 0 > 0 with
  | some p => pyStrip (after.take ((pyFind after p).getD 0))
  | none => after

/-- Model extraction (united_try.py:2141): before the first `-` when the
after-pipe text has a dash (no word cap); otherwise cut at the first
closing keyword and apply the 4-word cap (re-truncating to 3 words). -/
def extractModel (product_name : Str) : Str :=
  if subStr "|".toList product_name then
    let after := pyStrip (((pySplitOn product_name "|".toList).get? 1).getD [])
    if subStr "-".toList after then
      normalize_text (pyStrip ((pySplitOn after "-".toList).headD []))
    else
      let model_part := cutAtModelEnd after
      let ws := pySplitWs model_part
      if ws.length ≤ 4 then normalize_text model_part
      else normalize_text (" ".toList.intercalate (ws.take 3))
  else []

/-- `color_text`: the text after the main separator (first dash after the
pipe; first-comma prefix when there is no dash; after the last dash when
there is no pipe). -/
def colorTextOf (product_name : Str) : Str :=
  if subStr "|".toList product_name then
    let after := pyStrip (((pySplitOn product_name "|".toList).get? 1).getD [])
    if subStr "-".toList after then
      pyStrip (((pySplitOnce after "-".toList).get? 1).getD [])
    else if subStr ",".toList after then
      pyStrip ((pySplitOnce after ",".toList).headD [])
    else []
  else if subStr "-".toList product_name then
    pyStrip (((pyRSplitOnce product_name "-".toList).get? 1).getD [])
  else []

/-- `color_section`: where the common-color scan looks (un-stripped). -/
def colorSectionOf (product_name : Str) : Str :=
  if subStr "|".toList product_name then
    let after := pyStrip (((pySplitOn product_name "|".toList).get? 1).getD [])
    if subStr "-".toList after then
      ((pySplitOnce after "-".toList).get? 1).getD []
    else if subStr ",".toList after then
      ((pySplitOnce after ",".toList).get? 1).getD []
    else after
  else if subStr "-".toList product_name then
    ((pyRSplitOnce product_name "-".toList).get? 1).getD []
  else []

/-- The hard-coded palette of common color words. -/
def common_colors : List Str :=
  ["white", "black", "grey", "gray", "green", "blue", "red", "yellow",
   "orange", "purple", "violet", "brown", "pink", "sapphire", "emerald",
   "amethyst", "cosmic", "matte", "shiny", "chalky", "mystic", "asteroid",
   "graphite"].map String.toList

/-- Add the normalized words of a frame-color phrase (length > 2 only). -/
def addFrameWords (frame : Str) (acc : List Str) : List Str :=
  (pySplitWs frame).foldl (fun acc w =>
    let wc := normalize_text (pyStrip w)
    if wc ≠ [] ∧ wc.length > 2 then acc ++ [wc] else acc) acc

/-- The `color` field: frame words, Prizm™/Transitions® lens-color words,
then the common-color scan over `color_section`, deduplicated in order. -/
def extractColor (product_name : Str) : Str :=
  let ct := colorTextOf product_name
  let words0 : List Str :=
    if ct ≠ [] then
      let base :=
        if subStr ",".toList ct then
          addFrameWords (pyStrip ((pySplitOn ct ",".toList).headD [])) []
        else
          let frame :=
            if subStr "Prizm".toList ct then
              pyStrip (ct.take ((pyFind ct "Prizm".toList).getD 0))
            else if subStr "Transitions".toList ct then
              pyStrip (ct.take ((pyFind ct "Transitions".toList).getD 0))
            else if subStr "lenses".toList (pyLower ct) then
              pyStrip (ct.take ((pyFind (pyLower ct) "lenses".toList).getD 0))
            else pyStrip ct
          if frame ≠ [] then addFrameWords frame [] else []
      let withPrizm :=
        if subStr "Prizm".toList ct then
          let pp := ct.drop ((pyFind ct "Prizm".toList).getD 0)
          if subStr "™".toList pp then
            let after_tm := pyStrip (((pySplitOn pp "™".toList).get? 1).getD [])
            if after_tm ≠ [] then
              (pySplitWs ((pySplitOn after_tm ",".toList).headD [])).take 2
                |>.foldl (fun acc p =>
                  let pc := normalize_text (pyStrip p)
                  if pc ≠ [] ∧ pc.length > 1 then acc ++ [pc] else acc) base
            else base
          else base
        else base
      let withTrans :=
        if subStr "Transitions".toList ct then
          let tp := ct.drop ((pyFind ct "Transitions".toList).getD 0)
          if subStr "®".toList tp then
            let after_reg := pyStrip (((pySplitOn tp "®".toList).get? 1).getD [])
            let tcolors := pyStrip ((pySplitOn
              ((pySplitOn after_reg "lenses".toList).headD [])
              "Lenses".toList).headD [])
            (pySplitWs tcolors).foldl (fun acc p =>
              let pc := normalize_text (pyStrip p)
              if pc ≠ [] ∧ pc.length > 2 then acc ++ [pc] else acc) withPrizm
          else withPrizm
        else withPrizm
      withTrans
    else []
  let sect := colorSectionOf product_name
  let sectionLower := pyLower sect
  let words1 := common_colors.foldl (fun acc color =>
    if subStr color sectionLower ∧ ¬ acc.contains (normalize_text color) ∧
        sect ≠ [] then
      acc ++ [normalize_text color]
    else acc) words0
  let unique := words1.foldl (fun acc c =>
    if c ≠ [] ∧ ¬ acc.contains c then acc ++ [c] else acc) []
  " ".toList.intercalate unique

/-- Generation: `Gen\s*(\d+)` (then the redundant parenthesised pattern),
normalized to `Gen {n}`. -/
def extractGeneration (product_name : Str) : Str :=
  match reGenNum product_name with
  | some d => "Gen ".toList ++ d
  | none =>
    match reGenParen product_name with
    | some d => "Gen ".toList ++ d
    | none => []

/-- Size: first case-sensitive hit among the size keywords. -/
def size_keywords : List Str :=
  ["Large", "Small", "Medium", "Standard", "Oversized"].map String.toList

def extractSize (product_name : Str) : Str :=
  ((size_keywords.find? fun kw => subStr kw product_name).getD [])

/-- Low Bridge Fit flag. -/
def extractLowBridge (product_name : Str) : Bool :=
  subStr "low bridge fit".toList (pyLower product_name) ∨
  subStr "low bridge".toList (pyLower product_name)

/-- The narrower `frame_color` re-derivation (united_try.py:2340). -/
def extractFrameColorField (product_name : Str) : Str :=
  if subStr "|".toList product_name then
    let after := pyStrip (((pySplitOn product_name "|".toList).get? 1).getD [])
    if subStr "-".toList after then
      let frame_part := pyStrip (((pySplitOn after "-".toList).get? 1).getD [])
      let fc :=
        if subStr ",".toList frame_part then
          pyStrip ((pySplitOn frame_part ",".toList).headD [])
        else if subStr "Transitions".toList frame_part then
          pyStrip (frame_part.take ((pyFind frame_part "Transitions".toList).getD 0))
        else if subStr "Prizm".toList frame_part then
          pyStrip (frame_part.take ((pyFind frame_part "Prizm".toList).getD 0))
        else if subStr "lenses".toList frame_part then
          pyStrip ((pySplitOn frame_part "lenses".toList).headD [])
        else pyStrip frame_part
      normalize_text fc
    else []
  else []

/-- Result of the lens-extraction block (united_try.py:2354). -/
structure LensInfo where
  lens : Str := []
  transitions_color : Str := []
  prizm_color : Str := []
  simple_lens_color : Str := []
  lens_color : Str := []
  lens_type : Str := []
  deriving Repr, DecidableEq

/-- Colors accepted for a simple `, <color> lenses` phrase. -/
def simple_color_words : List Str :=
  ["green", "blue", "red", "black", "clear", "grey", "gray", "brown",
   "yellow", "orange", "purple", "pink"].map String.toList

def lens_type_keywords : List Str :=
  ["Polarised", "Polarized", "Gradient"].map String.toList

/-- Lens extraction: Transitions, else Prizm, else simple-color /
lens-type fallback — note the fallback's keyword scan also runs when a
simple lens color was already extracted. -/
def extractLens (product_name : Str) : LensInfo :=
  if subStr "Transitions".toList product_name then
    match markerLazySearch "transitions".toList isLetterSpace
        tailWsLenseCommaEnd product_name with
    | some g =>
      let tc := pyStrip g
      { transitions_color := normalize_text tc,
        lens := "Transitions ".toList ++ tc }
    | none => { lens := "Transitions".toList }
  else if subStr "Prizm".toList product_name then
    match markerLazySearch "prizm".toList isAlnumSpace
        tailWsCommaParenEnd product_name with
    | some g =>
      let pc := pyStrip g
      { prizm_color := normalize_text pc, lens := "Prizm ".toList ++ pc }
    | none => { lens := "Prizm".toList }
  else
    let simple : Option Str :=
      match commaLettersWsLit "lense".toList product_name with
      | some g =>
        let sc := pyStrip g
        if simple_color_words.contains (pyLower sc) then some sc else none
      | none => none
    let base : LensInfo :=
      match simple with
      | some sc =>
        { simple_lens_color := normalize_text sc,
          lens := sc ++ " lenses".toList }
      | none => {}
    match lazyLettersWsLense product_name with
    | some g =>
      if base.simple_lens_color = [] then
        let lt := pyStrip g
        if lens_type_keywords.any fun kw => subStr (pyLower kw) (pyLower lt) then
          { base with lens_type := normalize_text lt, lens := normalize_text lt }
        else
          { base with lens_color := normalize_text lt, lens := normalize_text lt }
      else
        -- simple color already set: the else-branch keyword scan runs
        match lens_type_keywords.find? fun kw => subStr kw product_name with
        | some kw =>
          let idx := (pyFind product_name kw).getD 0
          let lt := pyStrip ((pySplitOn
            ((pySplitOn (product_name.drop idx) ",".toList).headD [])
            "lenses".toList).headD [])
          { base with lens_type := normalize_text lt, lens := normalize_text lt }
        | none => base
    | none =>
      match lens_type_keywords.find? fun kw => subStr kw product_name with
      | some kw =>
        let idx := (pyFind product_name kw).getD 0
        let lt := pyStrip ((pySplitOn
          ((pySplitOn (product_name.drop idx) ",".toList).headD [])
          "lenses".toList).headD [])
        { base with lens_type := normalize_text lt, lens := normalize_text lt }
      | none => base

/-- `extract_product_details` (united_try.py:2070). -/
def extract_product_details (product_name : Str) : Details :=
  let li := extractLens product_name
  { brand := extractBrand product_name
    model := extractModel product_name
    color := extractColor product_name
    lens := li.lens
    size := extractSize product_name
    weight := extract_weight product_name
    generation := extractGeneration product_name
    transitions_color := li.transitions_color
    prizm_color := li.prizm_color
    frame_color := extractFrameColorField product_name
    lens_color := li.lens_color
    lens_type := li.lens_type
    low_bridge_fit := extractLowBridge product_name
    flavor := extractFlavor product_name
    count := extractCountDetails product_name
    full_text := normalize_text product_name
    simple_lens_color := li.simple_lens_color }

/-! ### `calculate_match_score` (united_try.py:2716)

The method computes the traditional score components (lines 2716–2911)
and then reads `self.ml_enabled` (line 2913), an attribute no code ever
assigns: every call raises `AttributeError` before the single `return` at
line 2950.  The pure definitions below embed the component arithmetic and
the `final_score` value of the traditional-only branch (line 2949) — the
value the method would return if the undefined read did not raise — which
parameterize the loop skeleton of `find_best_match`; the faithful
`calculate_match_score` itself is the always-raising `PyResult`. -/

/-- Outcome of a Python call: a returned value, or an uncaught
exception. -/
inductive PyResult (α : Type) where
  | ok (val : α) : PyResult α
  | raises : PyResult α
  deriving Repr, DecidableEq

/-- Base score: fuzzy token-sort ratio between the normalized result
title (the source's `variant_text`) and the normalized full text of the
original description (the source's `original_text`). -/
def base_score (d : Details) (result_title : Str) : ℚ :=
  token_sort_ratio (normalize_text result_title) d.full_text

def brand_bonus (d : Details) (variant_text : Str) : ℚ :=
  if d.brand ≠ [] ∧ subStr d.brand variant_text then 5 else 0

def model_bonus (d : Details) (variant_text : Str) : ℚ :=
  if d.model ≠ [] then
    let model_lower := pyLower d.model
    let variant_lower := pyLower variant_text
    if subStr model_lower variant_lower then 30
    else
      let model_words := pySplitWs d.model
      let matched := (model_words.filter fun w =>
        w.length > 3 ∧ subStr (pyLower w) variant_lower).length
      if (matched : ℚ) ≥ (model_words.length : ℚ) * 7 / 10 then 15
      else if matched > 0 then 5
      else 0
  else 0

/-- First index `i` with `words[i] ++ " " ++ words[i+1]` a substring of
the text (the two-word color search). -/
def twoWordHit (words : List Str) (variant_lower : Str) : Option Nat :=
  let rec go : List Str → Nat → Option Nat
    | w1 :: w2 :: rest, i =>
      if subStr (pyLower (w1 ++ [' '] ++ w2)) variant_lower then some i
      else go (w2 :: rest) (i + 1)
    | _, _ => none
  go words 0

def color_bonus (d : Details) (variant_text : Str) : ℚ :=
  if d.color ≠ [] then
    let variant_lower := pyLower variant_text
    let words0 := pySplitWs d.color
    let (bonus1, matched1, words1) : ℚ × Nat × List Str :=
      if words0.length ≥ 2 then
        match twoWordHit words0 variant_lower with
        | some i => (25, 2, (words0.set i []).set (i + 1) [])
        | none => (0, 0, words0)
      else (0, 0, words0)
    let (bonus2, matched2) := words1.foldl
      (fun (acc : ℚ × Nat) w =>
        if w ≠ [] ∧ w.length > 2 ∧ subStr (pyLower w) variant_lower then
          (acc.1 + 12, acc.2 + 1)
        else acc) (bonus1, matched1)
    let bonus3 := if matched2 > 1 then bonus2 + 10 else bonus2
    if matched2 = 0 then bonus3 - 5 else bonus3
  else 0

def lens_bonus (d : Details) (variant_text : Str) : ℚ :=
  if d.lens ≠ [] ∧ (pySplitWs d.lens).any
      (fun w => w.length > 3 ∧ subStr (pyLower w) (pyLower variant_text))
  then 10 else 0

/-- The closed list of known models the scoring penalty scans. -/
def common_oakley_models : List Str :=
  ["Gascan", "Holbrook", "Frogskins", "Radar", "Jawbreaker", "M Frame",
   "HSTN", "Vanguard", "Meta Vanguard", "Meta", "Headliner", "Fuel Cell",
   "Batwolf", "Plank", "Ten", "Sliver", "Crosshair", "Wiretap", "Oil Rig",
   "Flak", "Flak 2.0", "Flak XL", "Flak Draft", "Flak Draft XL"].map
    String.toList

def common_rayban_models : List Str :=
  ["Aviator", "Wayfarer", "Wayfarer Large", "Skyler", "Clubmaster",
   "RB3025", "RB2140", "RB3016", "Erika", "Justin", "New Wayfarer",
   "Original Wayfarer", "Headliner", "Headliner Low Bridge"].map
    String.toList

def model_penalty (d : Details) (variant_text : Str) : ℚ :=
  if d.model ≠ [] then
    let model_lower := pyLower d.model
    let variant_lower := pyLower variant_text
    let all_models := common_oakley_models ++ common_rayban_models
    match all_models.find? fun wm =>
        subStr (pyLower wm) variant_lower ∧
        ¬ subStr (pyLower wm) model_lower with
    | some _ =>
      let expected_in_result := (pySplitWs d.model).any fun w =>
        w.length > 3 ∧ subStr (pyLower w) variant_lower
      if ¬ expected_in_result then 50 else 30
    | none => 0
  else 0

def size_penalty (d : Details) (variant_text : Str) : ℚ :=
  if d.size ≠ [] then
    let expected := pyLower d.size
    let variant_upper := pyUpper variant_text
    if subStr (pyCapitalize expected) variant_upper ∨
        subStr (pyUpper expected) variant_upper then 0
    else 30
  else 0

def flavor_penalty (d : Details) (variant_text : Str) : ℚ :=
  if d.flavor ≠ [] ∧ ¬ subStr (pyLower d.flavor) (pyLower variant_text)
  then 50 else 0

/-- Natural-number distance `abs(a - b)`. -/
def natDist (a b : Nat) : Nat := max a b - min a b

def count_penalty (d : Details) (variant_text : Str) : ℚ :=
  match d.count with
  | some e =>
    match extractCount variant_text with
    | some r =>
      let tol := max 1 (e / 10)
      if natDist e r > tol then 50 else 0
    | none => if e > 10 then 30 else 0
  | none => 0

set_option linter.unusedVariables false in
/-- The `final_score` of the traditional-only branch (united_try.py:2949),
as a value: what `calculate_match_score` would return if the undefined
`self.ml_enabled` read at line 2913 did not raise first.  The `variant`
argument is accepted (as in the source's signature) but the traditional
arithmetic never reads it. -/
def traditionalFinalScore (d : Details) (variant : Str) (result_title : Str) : ℚ :=
  let variant_text := normalize_text result_title
  min 100 (base_score d result_title
    + brand_bonus d variant_text + model_bonus d variant_text
    + color_bonus d variant_text + lens_bonus d variant_text
    - model_penalty d variant_text - size_penalty d variant_text
    - flavor_penalty d variant_text - count_penalty d variant_text)

set_option linter.unusedVariables false in
/-- `calculate_match_score` (united_try.py:2716): every call reaches the
read of the never-assigned `self.ml_enabled` at line 2913 (the only
`try` blocks inside guard local `int()` parses) and raises
`AttributeError`; the method's single `return` at line 2950 is
unreachable. -/
def calculate_match_score (d : Details) (variant : Str) (result_title : Str) :
    PyResult ℚ :=
  PyResult.raises

/-! ### `find_best_match` (united_try.py:2952)

The candidate record (`SearchResult`, united_try.py:347).  The
`import re` statements at united_try.py:3760 and 4028 make `re` local to
the whole of `find_best_match`, so a `re.` use before one of them runs
raises `UnboundLocalError`.  The per-check definitions below embed the
checks' regexes with module `re` semantics; they parameterize the loop
skeleton, and the faithful `find_best_match` at the end surfaces the
raises: with a source description every run raises
(`calculate_match_score`, line 3101 or 3847), and a description-free run
raises exactly when it scans a candidate carrying an accessory keyword
(line 3027 runs `re.escape` before any local `import re` executed) —
description-free runs never reach any other `re.` use inside the
function. -/

structure SearchResult where
  url : Str
  title : Str
  retailer : Str
  variant : Str
  score : ℚ
  is_sponsored : Bool := false
  deriving Repr, DecidableEq

/-- The accessory keyword list of the early title check. -/
def accessory_keywords : List Str :=
  ["hibloks", "clip-on", "clip on", "attachment", "add-on", "addon"].map
    String.toList

/-- Early accessory rejection on the raw title (united_try.py:2967):
`hibloks` always rejects; `clip-on`/`clip on` reject when `polarized` is
also in the title; the remaining keywords carry no rejection. -/
def accessoryTitleCheck (title : Str) : Bool :=
  let tl := pyLower title
  accessory_keywords.any fun kw =>
    subStr kw tl ∧
    (kw = "hibloks".toList ∨
      ((kw = "clip-on".toList ∨ kw = "clip on".toList) ∧
        subStr "polarized".toList tl))

/-- Generic scan applying a prev-char-aware matcher at every position. -/
def scanWithPrevAux (f : Option Char → Str → Bool) (prev : Option Char) :
    Str → Bool
  | [] => false
  | c :: cs => f prev (c :: cs) || scanWithPrevAux f (some c) cs

def scanWithPrev (f : Option Char → Str → Bool) (s : Str) : Bool :=
  scanWithPrevAux f none s

/-- Left word boundary holds before the current position. -/
def boundaryOk (prev : Option Char) : Bool :=
  match prev with
  | some p => ! isWordChar p
  | none => true

/-- `\b<kw>\s+[a-z\s]*lens` (case-insensitive). -/
def boundKwWsClassLens (kw : Str) (s : Str) : Bool :=
  scanWithPrev (fun prev t =>
    boundaryOk prev &&
    (match eatCi kw t with
      | some r =>
        let r' := r.dropWhile isSpaceChar
        decide (r'.length < r.length) && classStarThen isLetterSpace "lens".toList r'
      | none => false)) s

/-- `\b<kw>\s+lens` (case-insensitive). -/
def boundKwWsLens (kw : Str) (s : Str) : Bool :=
  scanWithPrev (fun prev t =>
    boundaryOk prev &&
    (match eatCi kw t with
      | some r =>
        let r' := r.dropWhile isSpaceChar
        decide (r'.length < r.length) && (eatCi "lens".toList r').isSome
      | none => false)) s

/-- `\([^)]*kw[^)]*\)`. -/
def parenContains (kw : Str) (s : Str) : Bool :=
  (searchFrom (fun t =>
    match t with
    | '(' :: r =>
      let seg := r.takeWhile (· ≠ ')')
      if subStr kw seg && (match r.drop seg.length with
          | ')' :: _ => true
          | _ => false) then some () else none
    | _ => none) s).isSome

/-- Accessory patterns over the combined candidate text
(united_try.py:3022). -/
def accessoryFullCheck (ft : Str) : Bool :=
  accessory_keywords.any fun kw =>
    subStr kw ft ∧
    (boundLitWsAltAux kw ["for".toList, "compatible".toList] none ft ∨
      litWsAlt kw ["clip".toList, "attachment".toList] ft ∨
      litWsAlt "polarized".toList [kw] ft ∨
      litWsAlt kw ["polarized".toList] ft)

/-- Early clear-lens rejection on URL and raw title (united_try.py:3046). -/
def clearEarlyReject (d : Details) (title url : Str) : Bool :=
  d.simple_lens_color ≠ [] ∧ pyLower d.simple_lens_color = "clear".toList ∧
  ((let ul := pyLower url
    subStr "polarised".toList ul ∨ subStr "polarized".toList ul ∨
      subStr "gradient".toList ul) ∨
   (let tl := pyLower title
    subStr "polarised".toList tl ∨ subStr "polarized".toList tl ∨
      subStr "gradient".toList tl))

def size_words : List Str :=
  ["large", "small", "medium", "standard", "oversized"].map String.toList

/-- Key words of the main-pass name-overlap gate (united_try.py:3066):
brand words (length > 2), core model words (length > 3, size words
excluded), and the generation token. -/
def nameOverlapKeyWords (d : Details) : List Str :=
  (if d.brand ≠ [] then
    (pySplitWs (pyLower d.brand)).filter (fun w => w.length > 2)
  else []) ++
  (if d.model ≠ [] then
    (pySplitWs (pyLower d.model)).filter
      (fun w => w.length > 3 ∧ ¬ size_words.contains w)
  else []) ++
  (if d.generation ≠ [] then
    match reGenNum (pyLower d.generation) with
    | some g => ["gen".toList ++ g]
    | none => []
  else [])

/-- Key words of the fallback name-overlap gate (united_try.py:3913):
model words are not filtered against size words there. -/
def nameOverlapKeyWordsFb (d : Details) : List Str :=
  (if d.brand ≠ [] then
    (pySplitWs (pyLower d.brand)).filter (fun w => w.length > 2)
  else []) ++
  (if d.model ≠ [] then
    (pySplitWs (pyLower d.model)).filter (fun w => w.length > 3)
  else []) ++
  (if d.generation ≠ [] then
    match reGenNum (pyLower d.generation) with
    | some g => ["gen".toList ++ g]
    | none => []
  else [])

/-- ≥70 % of the key words (all of them when there are at most 2) must
occur in the candidate text; an empty key-word list imposes nothing. -/
def nameOverlapOk (keyWords : List Str) (txt : Str) : Bool :=
  keyWords.isEmpty ||
  (let matched := (keyWords.filter fun w => subStr w txt).length
   let minReq := if keyWords.length > 2 then max 1 (7 * keyWords.length / 10)
                 else keyWords.length
   decide (matched ≥ minReq))

/-- The conflicting-keyword table (united_try.py:3158). -/
def conflicting_pairs : List (Str × List Str) :=
  [("vanguard", ["flak", "gascan", "holbrook", "radar", "jawbreaker"]),
   ("flak", ["vanguard", "gascan", "holbrook"]),
   ("wayfarer", ["skyler", "aviator", "clubmaster"]),
   ("skyler", ["wayfarer", "aviator"]),
   ("clear", ["polarised", "polarized", "transitions", "prizm", "gradient"]),
   ("polarised", ["clear"]),
   ("transitions", ["clear", "prizm"]),
   ("prizm", ["clear", "transitions"]),
   ("graphite", ["sapphire", "emerald", "amethyst"]),
   ("sapphire", ["graphite", "emerald", "amethyst"])].map
    fun p => (p.1.toList, p.2.map String.toList)

/-- The identifying keywords collected from the source attributes
(united_try.py:3117); `_simple_lens` is the special marker. -/
def originalKeywords (d : Details) : List Str :=
  (if d.model ≠ [] then
    (pySplitWs (pyLower d.model)).filter (fun w => w.length > 3)
  else []) ++
  (if d.lens_type ≠ [] then
    (pySplitWs (pyLower d.lens_type)).filter (fun w => w.length > 3)
  else []) ++
  (if d.transitions_color ≠ [] then
    "transitions".toList ::
      (pySplitWs (pyLower d.transitions_color)).filter (fun w => w.length > 2)
  else []) ++
  (if d.prizm_color ≠ [] then
    "prizm".toList ::
      (pySplitWs (pyLower d.prizm_color)).filter (fun w => w.length > 2)
  else []) ++
  (if d.simple_lens_color ≠ [] then
    [pyLower d.simple_lens_color, "_simple_lens".toList]
  else []) ++
  (if d.generation ≠ [] then
    match reGenNum (pyLower d.generation) with
    | some g => ["gen".toList ++ g]
    | none => []
  else []) ++
  (if d.size ≠ [] then [pyLower d.size] else [])

/-- The known-model list of the conflicting-model rejection
(united_try.py:3207). -/
def all_known_models_conflict : List Str :=
  ["vanguard", "flak", "wayfarer", "skyler", "headliner", "aviator",
   "clubmaster", "gascan", "holbrook", "frogskins", "radar",
   "jawbreaker"].map String.toList

/-- Conflicting-keyword hit (forces the score to 0). -/
def conflictKeywordHit (d : Details) (ft : Str) : Bool :=
  (originalKeywords d).any fun kw =>
    (match kw with
      | '_' :: _ => false
      | _ =>
        match conflicting_pairs.find? (fun p => p.1 = kw) with
        | some (_, cws) => cws.any fun cw => subStr cw ft ∧ ¬ subStr kw ft
        | none => false)

/-- `_simple_lens` special rejection (breaks the variant loop). -/
def simpleMarkerBreak (d : Details) (ft : Str) : Bool :=
  d.simple_lens_color ≠ [] ∧
  (((subStr "polarised".toList ft ∨ subStr "polarized".toList ft) ∧
    (¬ subStr "clear".toList ft ∨
      (subStr "clear".toList ft ∧ subStr "polarised".toList ft))) ∨
   subStr "transitions".toList ft ∨ subStr "prizm".toList ft)

/-- Wrong-known-model hit of the conflict section: a different known model
appears while the expected one does not. -/
def conflictModelHit (d : Details) (ft : Str) : Option Bool :=
  -- `none`: section inactive (no model or no core model); `some b`: active
  -- with hit-result `b` (the section breaks the variant loop whenever the
  -- running score is 0 at its end).
  if d.model ≠ [] then
    match all_known_models_conflict.find?
        (fun m => subStr m (pyLower d.model)) with
    | some core =>
      some (all_known_models_conflict.any fun wm =>
        wm ≠ core ∧ subStr wm ft ∧ ¬ subStr core ft)
    | none => none
  else none

/-- Generation hard check (united_try.py:3228); `true` = pass. -/
def genCheckMain (d : Details) (ft : Str) : Bool :=
  d.generation.isEmpty ||
  (let expected := pyLower d.generation
   match reGenNum ft with
   | some g => decide ("gen ".toList ++ g = expected)
   | none =>
     ! ((subStr "gen 2".toList expected ∨ subStr "gen2".toList expected) ∧
        reGen1Bound ft))

/-- Size hard check (united_try.py:3249); `true` = pass. -/
def sizeCheckMain (d : Details) (ft : Str) : Bool :=
  d.size.isEmpty ||
  (let expected := pyLower d.size
   let fu := pyUpper ft
   subStr (pyCapitalize expected) fu || subStr (pyUpper expected) fu)

/-- The three Transitions color patterns of the main pass, tried in order. -/
def transPatternsMain (ft : Str) : Option Str :=
  match markerLazySearch "transitions".toList isLetterSpace
      tailWsLenseCommaEndParen ft with
  | some g => some g
  | none =>
    match markerLazySearch "transitions".toList isLetterSpace
        tailWsSlashParenEnd ft with
    | some g => some g
    | none => markerGreedyLetters "transitions".toList ft

/-- Strict Transitions color check (united_try.py:3260); `true` = pass. -/
def transCheckMain (d : Details) (ft : Str) : Bool :=
  d.transitions_color.isEmpty ||
  (let expected := pyLower d.transitions_color
   if subStr "transitions".toList ft then
     match transPatternsMain ft with
     | some g =>
       let rc := normalize_text (pyStrip g)
       if expected = rc then true
       else
         let ew := pySplitWs expected
         if ew.length > 1 then ew.all fun w => subStr w rc
         else false
     | none => false
   else false)

/-- First simple-lens-color block (united_try.py:3314); `true` = pass. -/
def simpleLensCheck1 (d : Details) (ft : Str) : Bool :=
  d.simple_lens_color.isEmpty ||
  (let expected := pyLower d.simple_lens_color
   (! (subStr "transitions".toList ft || subStr "prizm".toList ft)) &&
   wholeWord expected ft)

/-- `,\s*([a-z]+)\s+lens` over the combined text. -/
def simpleColorLensMatch (ft : Str) : Option Str :=
  commaLettersWsLit "lens".toList ft

/-- Transitions/Prizm-expected versus simple-lens-result checks
(united_try.py:3333); `true` = pass. -/
def transPrizmVsSimple (d : Details) (ft : Str) : Bool :=
  (d.transitions_color.isEmpty && d.prizm_color.isEmpty) ||
  (if (simpleColorLensMatch ft).isSome ∧ ¬ subStr "transitions".toList ft ∧
      ¬ subStr "prizm".toList ft then false
   else if d.transitions_color ≠ [] then
     let expected := pyLower d.transitions_color
     let cw := ((pySplitWs expected).headD expected)
     if subStr cw ft then
       match pyFind ft "transitions".toList, pyFind ft cw with
       | none, _ => false
       | some tp, some cp => ! (decide (cp < tp) || decide (cp > tp + 50))
       | some _, none => true
     else true
   else true)

/-- Prizm alias table (united_try.py:3367). -/
def prizm_color_aliases : List (Str × List Str) :=
  [("24k", ["gold", "24k gold", "24 karat"]),
   ("24k gold", ["gold", "24k", "24 karat"]),
   ("gold", ["24k", "24k gold", "24 karat"]),
   ("black", ["dark", "jet black"]),
   ("sapphire", ["blue sapphire"])].map
    fun p => (p.1.toList, p.2.map String.toList)

/-- All alias variants of an expected Prizm color, in build order. -/
def prizmVariants (expected : Str) : List Str :=
  (expected ::
    (match prizm_color_aliases.find? (fun p => p.1 = expected) with
      | some (_, vs) => vs
      | none => [])) ++
  (prizm_color_aliases.filter (fun p => p.2.contains expected)).map (·.1)

/-- The three Prizm color patterns of the main pass, tried in order. -/
def prizmPatternsMain (ft : Str) : Option Str :=
  match markerLazySearch "prizm".toList isAlnumSpace tailWsCommaParenEnd ft with
  | some g => some g
  | none =>
    match markerLazySearch "prizm".toList isAlnumSpace tailWsSlashParenEnd ft with
    | some g => some g
    | none => markerGreedyLetters "prizm".toList ft

/-- Strict Prizm color check (united_try.py:3363); `true` = pass. -/
def prizmCheckMain (d : Details) (ft : Str) : Bool :=
  d.prizm_color.isEmpty ||
  (let expected := pyLower d.prizm_color
   let vars := prizmVariants expected
   if subStr "prizm".toList ft then
     match prizmPatternsMain ft with
     | some g =>
       let rc := normalize_text (pyStrip g)
       decide (expected = rc) || vars.contains rc ||
         vars.any (fun a => a.length > 3 ∧ subStr a rc) ||
         vars.any (fun a => a.length > 3 ∧ subStr rc a)
     | none =>
       subStr expected ft || vars.any (fun a => subStr a ft)
   else false)

def clear_reject_lens_keywords : List Str :=
  ["polarised", "polarized", "gradient", "transitions", "prizm"].map
    String.toList

def clear_reject_other_colors : List Str :=
  ["green", "black", "grey", "gray", "blue", "red", "yellow", "orange",
   "purple", "pink", "brown", "sapphire", "emerald", "amethyst",
   "graphite"].map String.toList

/-- One lens-type pattern bundle of the clear-lens check. -/
def clearLensTypePatternHit (kw : Str) (ft : Str) : Bool :=
  boundKwWsClassLens kw ft || subStr ('/' :: kw) ft || parenContains kw ft ||
  litWsAlt kw ["gradient".toList] ft || litWsAlt "gradient".toList [kw] ft

/-- One lens-color pattern bundle of the clear-lens check. -/
def clearColorPatternHit (oc : Str) (ft : Str) : Bool :=
  boundKwWsLens oc ft || subStr ('/' :: oc) ft || parenContains oc ft

/-- Strict simple-lens-color check (united_try.py:3340), evaluated after
the `lens_color` promotion; returns the surviving score or `none`.
The other-colors scan only runs when the score is positive at that point
(the source's `if score > 0`). -/
def simpleLensStrict (d : Details) (ft rawTitleLower : Str) (score : ℚ) :
    Option ℚ :=
  if d.simple_lens_color = [] then some score
  else
    let expected := pyLower d.simple_lens_color
    if subStr "transitions".toList ft ∨ subStr "prizm".toList ft then none
    else if ¬ wholeWord expected ft then none
    else if expected = "clear".toList then
      if subStr "polarised".toList rawTitleLower ∨
          subStr "polarized".toList rawTitleLower then none
      else if clear_reject_lens_keywords.any fun kw =>
          subStr kw ft ∧
          (kw = "polarised".toList ∨ kw = "polarized".toList ∨
            clearLensTypePatternHit kw ft) then none
      else if score > 0 ∧ clear_reject_other_colors.any fun oc =>
          subStr oc ft ∧ clearColorPatternHit oc ft then none
      else some score
    else some score

/-- `polarised[®™\s]*gradient[®™\s]*graphite|polarized...` (ci). -/
def combinedPolGradGraphite (ft : Str) : Bool :=
  let cls : Char → Bool := fun c => c = '®' ∨ c = '™' ∨ isSpaceChar c
  (searchFrom (fun t =>
    let tryFrom : Str → Option Unit := fun r1 =>
      match eatClassStarLit cls "gradient".toList r1 with
      | some r2 =>
        match eatClassStarLit cls "graphite".toList r2 with
        | some _ => some ()
        | none => none
      | none => none
    match eatCi "polarised".toList t with
    | some r1 => tryFrom r1
    | none =>
      match eatCi "polarized".toList t with
      | some r1 => tryFrom r1
      | none => none) ft).isSome

def common_colors_lens_result : List Str :=
  ["green", "clear", "black", "grey", "gray", "blue", "red", "yellow",
   "orange", "purple", "violet", "brown", "pink", "sapphire", "emerald",
   "amethyst"].map String.toList

/-- Strict lens-type check (united_try.py:3513); `true` = pass. -/
def lensTypeCheckMain (d : Details) (ft rawTitleLower : Str) : Bool :=
  d.lens_type.isEmpty ||
  (let expected := pyLower d.lens_type
   let words := pySplitWs expected
   if words.length > 1 then
     let keyWords := words.filter (fun w => w.length > 3)
     if ¬ (keyWords.all fun w => subStr w ft) then false
     else if subStr "polarised gradient graphite".toList expected ∨
         subStr "polarized gradient graphite".toList expected then
       let polT := subStr "polarised".toList rawTitleLower ∨
         subStr "polarized".toList rawTitleLower
       let titleReject :=
         (¬ subStr "polarised gradient graphite".toList rawTitleLower ∧
          ¬ subStr "polarized gradient graphite".toList rawTitleLower) ∧
         ((polT ∧ ¬ subStr "gradient".toList rawTitleLower) ∨
          (polT ∧ subStr "gradient".toList rawTitleLower ∧
            ¬ subStr "graphite".toList rawTitleLower))
       if titleReject then false
       else
         let polF := subStr "polarised".toList ft ∨ subStr "polarized".toList ft
         let fullReject :=
           ¬ combinedPolGradGraphite ft ∧
           ((polF ∧ ¬ subStr "gradient".toList ft) ∨
            (polF ∧ subStr "gradient".toList ft ∧
              ¬ subStr "graphite".toList ft))
         ! fullReject
     else true
   else
     match lazyLettersWsLense ft with
     | some g =>
       let rl := normalize_text (pyStrip g)
       subStr expected rl
     | none => subStr expected ft)

def finish_words : List Str :=
  ["shiny", "matte", "glossy", "chalky", "mystic", "cosmic",
   "asteroid"].map String.toList

/-- Frame-color check (united_try.py:3564): multi-word frame colors with a
conflicting finish reject; a missing single-word frame color costs 10
points.  Returns the surviving score or `none`. -/
def frameColorAdjust (d : Details) (ft : Str) (score : ℚ) : Option ℚ :=
  if d.frame_color = [] then some score
  else
    let expected := pyLower d.frame_color
    let words := pySplitWs expected
    if words.length > 1 then
      let allPresent := words.all fun w => w.length ≤ 2 ∨ subStr w ft
      if ¬ allPresent then
        let expectedF := words.filter (fun w => finish_words.contains w)
        let resultF := finish_words.filter (fun w => subStr w ft)
        if expectedF ≠ [] ∧ resultF ≠ [] ∧ expectedF ≠ resultF then none
        else some score
      else some score
    else
      if ¬ subStr expected ft then some (score - 10) else some score

/-- Low Bridge Fit check (united_try.py:3596); `true` = pass. -/
def lowBridgeCheckMain (d : Details) (ft : Str) : Bool :=
  (! d.low_bridge_fit) || subStr "low bridge".toList (pyLower ft)

/-- Words dropped when deriving the core model name (united_try.py:3636). -/
def core_model_skip_words : List Str :=
  ["gen", "2", "gen2", "low", "bridge", "fit", "large", "(gen", "gen)",
   "meta"].map String.toList

/-- Core model words: model words not in the skip list, longer than 2. -/
def coreModelWords (model : Str) : List Str :=
  (pySplitWs model).filterMap fun w =>
    let wl := pyLower w
    if ¬ core_model_skip_words.contains wl ∧ w.length > 2 then some wl
    else none

/-- The known-model list of the main-pass model validation
(united_try.py:3651). -/
def all_known_models_main : List Str :=
  ["wayfarer", "skyler", "headliner", "vanguard", "aviator", "clubmaster",
   "gascan", "holbrook", "frogskins", "radar", "jawbreaker", "flak",
   "flak 2.0", "flak xl"].map String.toList

/-- Model validation of the main pass (united_try.py:3620): never rejects
outright, but zeroes the score on a wrong known model and applies the
−50/−40 confidence reductions. -/
def modelValidationMain (d : Details) (ft : Str) (score : ℚ) : ℚ :=
  if d.model = [] then score
  else
    let model_value := pyStrip d.model
    if ¬ (model_value.length > 2 ∧
        ¬ pyIsDigit (model_value.filter (· ≠ ' '))) then score
    else
      let model_lower := pyLower d.model
      let core_words := coreModelWords d.model
      let core_model := if core_words ≠ [] then
          " ".toList.intercalate core_words
        else model_lower
      let exact := subStr core_model ft ∨ subStr model_lower ft
      let keyWords := core_words.filter (fun w => w.length > 3)
      let matched := (keyWords.filter fun w => subStr w ft).length
      let partialM := matched ≥ max 1 keyWords.length
      let wrongDetected := all_known_models_main.any fun wm =>
        wm ≠ core_model ∧ ¬ subStr wm model_lower ∧ subStr wm ft ∧
        ¬ exact ∧ matched = 0
      if wrongDetected then 0
      else
        let s1 := if score ≥ 60 ∧ ¬ exact ∧ ¬ partialM then score - 50
                  else score
        if s1 ≥ 70 ∧ ¬ exact then s1 - 40 else s1

/-- Low-score strict-attribute gate (united_try.py:3683); `true` = keep. -/
def lowScoreStrict (d : Details) (title : Str) (score thr : ℚ) : Bool :=
  if score ≥ thr ∧ score < 65 then
    let rt := normalize_text title
    let genOk :=
      d.generation.isEmpty ||
      (match reGenNum rt with
        | some g => decide ("gen ".toList ++ g = pyLower d.generation)
        | none => false)
    let transOk :=
      d.transitions_color.isEmpty || subStr "transitions".toList rt
    let lensColorOk :=
      d.lens_color.isEmpty || subStr (pyLower d.lens_color) rt
    genOk && transOk && lensColorOk
  else true

/-- Brand hard check (united_try.py:3716); `true` = pass. -/
def brandCheckMain (d : Details) (ft : Str) : Bool :=
  d.brand.isEmpty || subStr (pyLower d.brand) (pyLower ft)

/-- Weight hard check (united_try.py:3726) on the raw title; `true` = pass. -/
def weightCheckMain (d : Details) (rawTitle : Str) : Bool :=
  match d.weight with
  | some w =>
    match extract_weight rawTitle with
    | some w' => decide (|w - w'| ≤ 1/100)
    | none => false
  | none => true

/-- Flavor hard check (united_try.py:3745); `true` = pass. -/
def flavorCheckMain (d : Details) (ft : Str) : Bool :=
  d.flavor.isEmpty || subStr (pyLower d.flavor) (pyLower ft)

/-- Count check of the main pass (united_try.py:3754): with an extractable
candidate count, the adaptive tolerance (10 % above 20 expected, 15 %
otherwise, minimum 2) must hold; with none extractable the candidate
passes (the source only logs). -/
def countCheckMain (d : Details) (ft : Str) : Bool :=
  match d.count with
  | some e =>
    match extractCount ft with
    | some r =>
      let tol := if e > 20 then max 2 (e / 10) else max 2 (3 * e / 20)
      decide (natDist e r ≤ tol)
    | none => true
  | none => true

/-- Final pre-acceptance validation (united_try.py:3796); `true` = valid. -/
def finalValidOk (d : Details) (rawTitleLower urlLower ft : Str) : Bool :=
  let v1 :=
    if d.simple_lens_color ≠ [] then
      let expected := pyLower d.simple_lens_color
      if expected = "clear".toList then
        (subStr "clear".toList rawTitleLower ||
          subStr "clear".toList urlLower) &&
        ! (subStr "polarised".toList rawTitleLower ||
           subStr "polarized".toList rawTitleLower ||
           subStr "gradient".toList rawTitleLower)
      else
        subStr expected rawTitleLower || subStr expected urlLower
    else true
  v1 && (d.transitions_color.isEmpty ||
    subStr "transitions".toList rawTitleLower ||
    subStr "transitions".toList urlLower ||
    subStr "transitions".toList (pyLower ft))

/-- The `lens_color` → `simple_lens_color` promotion
(united_try.py:3329): mutates the shared attribute record when a plain
lens color was extracted but no simple lens color. -/
def promoteLens (d : Details) : Details :=
  if d.lens_color ≠ [] ∧ d.simple_lens_color = [] then
    { d with simple_lens_color := d.lens_color }
  else d

/-- Outcome of one (candidate, variant) evaluation in the main pass:
`cont` tries the next variant, `brk` abandons the remaining variants of
this candidate, `pass s` survived every check with final score `s`. -/
inductive VOut where
  | cont : VOut
  | brk : VOut
  | pass (score : ℚ) : VOut
  deriving Repr, DecidableEq

/-- Score out of the conflicting-keyword section (united_try.py:3107):
a conflicting keyword or a conflicting known model zeroes the score. -/
def conflictScore (d : Details) (ft : Str) (s0 : ℚ) : ℚ :=
  match conflictModelHit d ft with
  | some hit =>
    if hit then 0 else if conflictKeywordHit d ft then 0 else s0
  | none => if conflictKeywordHit d ft then 0 else s0

/-- Whether the conflict section breaks out of the variant loop: the
`_simple_lens` special check always breaks, and the known-model check
breaks whenever the score is 0 at its end. -/
def conflictBreaks (d : Details) (ft : Str) (s0 : ℚ) : Bool :=
  simpleMarkerBreak d ft ||
  (match conflictModelHit d ft with
   | some _ => decide (conflictScore d ft s0 = 0)
   | none => false)

/-- The plain score used when no source description was provided. -/
def noDetailsScore (v title : Str) : ℚ :=
  token_sort_ratio (normalize_text v) (normalize_text title)

/-- Checks after the `lens_color` promotion (united_try.py:3340–3794). -/
def evalVariantTail2 (d' : Details) (thr : ℚ) (r : SearchResult) (ft : Str)
    (score : ℚ) : VOut × Option Details :=
  match simpleLensStrict d' ft (pyLower r.title) score with
  | none => (.cont, some d')
  | some score =>
    if ¬ lensTypeCheckMain d' ft (pyLower r.title) then (.cont, some d')
    else
      match frameColorAdjust d' ft score with
      | none => (.cont, some d')
      | some score =>
        if ¬ lowBridgeCheckMain d' ft then (.cont, some d')
        else if ¬ lowScoreStrict d' r.title
            (modelValidationMain d' ft score) thr then (.cont, some d')
        else if ¬ brandCheckMain d' ft then (.cont, some d')
        else if ¬ weightCheckMain d' r.title then (.cont, some d')
        else if ¬ flavorCheckMain d' ft then (.cont, some d')
        else if ¬ countCheckMain d' ft then (.cont, some d')
        else (.pass (modelValidationMain d' ft score), some d')

/-- Checks of the main pass after the conflict section (generation
onwards, united_try.py:3228–3794). -/
def evalVariantTail (d : Details) (thr : ℚ) (r : SearchResult) (ft : Str)
    (score : ℚ) : VOut × Option Details :=
  if ¬ genCheckMain d ft then (.cont, some d)
  else if ¬ sizeCheckMain d ft then (.cont, some d)
  else if ¬ transCheckMain d ft then (.cont, some d)
  else if ¬ simpleLensCheck1 d ft then (.cont, some d)
  else if ¬ transPrizmVsSimple d ft then (.cont, some d)
  else if ¬ prizmCheckMain d ft then (.cont, some d)
  else evalVariantTail2 (promoteLens d) thr r ft score

/-- `evalVariant` with the combined candidate text made explicit. -/
def evalVariantCore (od : Option Details) (thr : ℚ) (r : SearchResult)
    (v : Str) (ft : Str) : VOut × Option Details :=
  if accessoryFullCheck ft then (.brk, od)
  else
    match od with
    | none =>
      if noDetailsScore v r.title = 0 then (.cont, none)
      else (.pass (noDetailsScore v r.title), none)
    | some d =>
      if clearEarlyReject d r.title r.url then (.cont, some d)
      else if ¬ nameOverlapOk (nameOverlapKeyWords d) ft then (.cont, some d)
      else if conflictBreaks d ft (traditionalFinalScore d v r.title) then
        (.brk, some d)
      else if conflictScore d ft (traditionalFinalScore d v r.title) = 0 then
        (.cont, some d)
      else evalVariantTail d thr r ft
        (conflictScore d ft (traditionalFinalScore d v r.title))

/-- The full check chain of the main pass for one (candidate, variant)
pair (united_try.py:2993–3794), returning the outcome and the (possibly
`lens_color`-promoted) attribute record.  The attribute-bearing branch is
the counterfactual skeleton (its scorer call at line 3101 raises in the
real code); only the description-free branch is reached by returning
runs. -/
def evalVariant (od : Option Details) (thr : ℚ) (r : SearchResult)
    (v : Str) : VOut × Option Details :=
  evalVariantCore od thr r v (normalize_text r.title)

/-- Running state of the selection: current best
(index, candidate, score, variant) and the threaded attribute record. -/
structure MState where
  best : Option (Nat × SearchResult × ℚ × Str) := none
  det : Option Details := none
  deriving Repr

def bestScoreOf : Option (Nat × SearchResult × ℚ × Str) → ℚ
  | none => 0
  | some (_, _, s, _) => s

/-- Final validation of a prospective new best (united_try.py:3800). -/
def finalValidOfDet (det : Option Details) (r : SearchResult) : Bool :=
  match det with
  | some d => finalValidOk d (pyLower r.title) (pyLower r.url)
      (normalize_text r.title)
  | none => true

/-- Acceptance step of the main pass (united_try.py:3796): a surviving
score must beat the current best, reach the fuzzy threshold and pass the
final validation. -/
def acceptStep (thr : ℚ) (best : Option (Nat × SearchResult × ℚ × Str))
    (i : Nat) (r : SearchResult) (det : Option Details) (s : ℚ) (v : Str) :
    Option (Nat × SearchResult × ℚ × Str) :=
  if s > bestScoreOf best ∧ s ≥ thr then
    if finalValidOfDet det r then some (i, r, s, v) else best
  else best

/-- The inner variant loop of the main pass for one candidate. -/
def variantLoop (thr : ℚ) (i : Nat) (r : SearchResult) :
    List Str → MState → MState
  | [], st => st
  | v :: vs, st =>
    match evalVariant st.det thr r v with
    | (.brk, d') => { st with det := d' }
    | (.cont, d') => variantLoop thr i r vs { st with det := d' }
    | (.pass s, d') =>
      variantLoop thr i r vs
        { best := acceptStep thr st.best i r d' s v, det := d' }

/-- One candidate of the main pass: accessory-titled candidates are
skipped outright. -/
def mainResultStep (variants : List Str) (thr : ℚ) (st : MState)
    (p : Nat × SearchResult) : MState :=
  if accessoryTitleCheck p.2.title then st
  else variantLoop thr p.1 p.2 variants st

/-- The main scoring pass over all (candidate × variant) pairs. -/
def mainPass (variants : List Str) (thr : ℚ)
    (pairs : List (Nat × SearchResult)) (st : MState) : MState :=
  pairs.foldl (mainResultStep variants thr) st

/-- Fallback Transitions check (united_try.py:3865); `true` = keep. -/
def fbTransOk (d : Details) (rt : Str) : Bool :=
  subStr "transitions".toList rt &&
  (match markerLazySearch "transitions".toList isLetterSpace
      tailWsLenseCommaEnd rt with
    | some g =>
      let rc := normalize_text (pyStrip g)
      let expected := pyLower d.transitions_color
      decide (expected = rc) ||
        (let ew := pySplitWs expected
         decide (ew.length > 1) && ew.all fun w => subStr w rc)
    | none => false)

/-- Fallback size check (united_try.py:3894); `true` = keep. -/
def sizeCheckFb (d : Details) (rt : Str) : Bool :=
  let expected := pyLower d.size
  let ru := pyUpper rt
  subStr (pyCapitalize expected) ru || subStr (pyUpper expected) ru

/-- The known-model list of the fallback wrong-model check
(united_try.py:3962) — `flak` is absent there. -/
def all_known_models_fb : List Str :=
  ["wayfarer", "skyler", "headliner", "vanguard", "aviator", "clubmaster",
   "gascan", "holbrook", "frogskins", "radar", "jawbreaker"].map
    String.toList

/-- The relaxed strict checks of the fallback pass
(united_try.py:3850–3899); `true` = keep the candidate. -/
def fallbackStrictOk (det : Option Details) (rt : Str) : Bool :=
  match det with
  | some d =>
    (d.generation.isEmpty ||
      (match reGenNum rt with
        | some g => decide ("gen ".toList ++ g = pyLower d.generation)
        | none => true)) &&
    (d.transitions_color.isEmpty || fbTransOk d rt) &&
    (d.simple_lens_color.isEmpty ||
      ! (subStr "transitions".toList rt || subStr "prizm".toList rt)) &&
    (d.size.isEmpty || sizeCheckFb d rt)
  | none => true

/-- The fallback's name-overlap gate. -/
def fallbackOverlapOk (det : Option Details) (rt : Str) : Bool :=
  match det with
  | some d => nameOverlapOk (nameOverlapKeyWordsFb d) rt
  | none => true

/-- The fallback's raw score for a (candidate, variant) pair. -/
def fallbackScore0 (det : Option Details) (r : SearchResult) (v : Str) : ℚ :=
  match det with
  | some d => traditionalFinalScore d v r.title
  | none => token_sort_ratio (normalize_text v) (normalize_text r.title)

/-- The fallback wrong-model / model-match adjustment
(united_try.py:3946): `(wrong-model detected, adjusted score)`. -/
def fallbackModelAdjust (det : Option Details) (rt : Str) (score0 : ℚ) :
    Bool × ℚ :=
  match det with
  | some d =>
    if d.model ≠ [] then
      let model_lower := pyLower d.model
      let core_words := coreModelWords d.model
      let core_model := if core_words ≠ [] then
          " ".toList.intercalate core_words
        else model_lower
      let wrong := all_known_models_fb.any fun wm =>
        wm ≠ core_model ∧ ¬ subStr wm model_lower ∧ subStr wm rt ∧
        ¬ subStr core_model rt ∧
        ¬ core_words.any (fun w => w.length > 3 ∧ subStr w rt)
      if wrong then (true, score0)
      else
        let exact := subStr model_lower rt ∨ subStr core_model rt
        let keyWords := core_words.filter (fun w => w.length > 3)
        let matched := (keyWords.filter fun w => subStr w rt).length
        let partialM := keyWords ≠ [] ∧
          (matched : ℚ) ≥ max 1 ((keyWords.length : ℚ) * 5 / 10)
        if ¬ (exact ∨ partialM) then (false, score0 - 10)
        else (false, score0)
    else (false, score0)
  | none => (false, score0)

/-- The fallback's brand requirement. -/
def fallbackBrandOk (det : Option Details) (rt : Str) : Bool :=
  match det with
  | some d => d.brand.isEmpty || subStr (pyLower d.brand) rt
  | none => true

/-- One (candidate, variant) try of the relaxed fallback pass
(united_try.py:3842–4001): the accepted score, if the candidate passes
every relaxed check and beats the current best. -/
def fallbackScore (det : Option Details) (r : SearchResult) (v : Str)
    (bestScore : ℚ) : Option ℚ :=
  if ¬ fallbackStrictOk det (normalize_text r.title) then none
  else if ¬ fallbackOverlapOk det (normalize_text r.title) then none
  else if fallbackScore0 det r v > bestScore ∧ fallbackScore0 det r v ≥ 70 then
    if (! (fallbackModelAdjust det (normalize_text r.title)
          (fallbackScore0 det r v)).1) &&
        fallbackBrandOk det (normalize_text r.title) &&
        decide ((fallbackModelAdjust det (normalize_text r.title)
          (fallbackScore0 det r v)).2 ≥ 70) then
      some (fallbackModelAdjust det (normalize_text r.title)
        (fallbackScore0 det r v)).2
    else none
  else none

/-- One (candidate, variant) try of the relaxed fallback pass. -/
def fallbackTry (i : Nat) (r : SearchResult) (v : Str) (st : MState) :
    MState :=
  match fallbackScore st.det r v (bestScoreOf st.best) with
  | some s => { st with best := some (i, r, s, v) }
  | none => st

/-- The fallback variant loop (no breaks there). -/
def fallbackVariantLoop (i : Nat) (r : SearchResult) :
    List Str → MState → MState
  | [], st => st
  | v :: vs, st => fallbackVariantLoop i r vs (fallbackTry i r v st)

/-- The relaxed fallback pass over the first 10 candidates. -/
def fallbackPass (variants : List Str) (pairs : List (Nat × SearchResult))
    (st : MState) : MState :=
  pairs.foldl (fun st p => fallbackVariantLoop p.1 p.2 variants st) st

/-- Terminal gate: brand presence on the selected title
(united_try.py:4012). -/
def gateBrandOk (d : Details) (title : Str) : Bool :=
  d.brand.isEmpty || subStr (pyLower d.brand) (pyLower title)

/-- Terminal gate: exact flavor phrase on the selected title
(united_try.py:4020). -/
def gateFlavorOk (d : Details) (title : Str) : Bool :=
  d.flavor.isEmpty || subStr (pyLower d.flavor) (pyLower title)

/-- Terminal gate: count tolerance on the selected title for significant
counts (united_try.py:4027); the gate's patterns omit `pieces`, and a
title with no extractable count passes. -/
def gateCountOk (d : Details) (title : Str) : Bool :=
  match d.count with
  | some e =>
    if e > 10 then
      match extractCountGate (pyLower title) with
      | some r =>
        let tol := if e > 20 then max 2 (e / 10) else max 2 (3 * e / 20)
        decide (natDist e r ≤ tol)
      | none => true
    else true
  | none => true

/-- Terminal gate: exact weight on the selected title
(united_try.py:4055): a stated weight must agree within 0.01 oz and a
missing stated weight rejects. -/
def gateWeightOk (d : Details) (title : Str) : Bool :=
  match d.weight with
  | some w =>
    match extract_weight title with
    | some w' => decide (|w - w'| ≤ 1/100)
    | none => false
  | none => true

/-- Terminal-gate conjunction on the selected candidate's raw title. -/
def gatesOk (det : Option Details) (title : Str) : Bool :=
  match det with
  | some d => gateBrandOk d title && gateFlavorOk d title &&
      gateCountOk d title && gateWeightOk d title
  | none => true

/-- The initial loop state: no best yet, attributes extracted once from a
nonempty source description. -/
def initState (name : Str) : MState :=
  { best := none,
    det := if name = [] then none else some (extract_product_details name) }

/-- The selection state after the main pass and (when the main pass found
nothing) the relaxed fallback pass over the first 10 candidates. -/
def selectState (variants : List Str) (results : List SearchResult)
    (name : Str) (thr : ℚ) : MState :=
  if (mainPass variants thr results.enum (initState name)).best = none then
    fallbackPass variants (results.enum.take 10)
      (mainPass variants thr results.enum (initState name))
  else mainPass variants thr results.enum (initState name)

/-- The selection skeleton of `find_best_match` (united_try.py:2952),
returning the index of the selected candidate together with the updated
record (the source mutates the selected `SearchResult` in place and
returns it); the terminal threshold (line 4003) and gate are applied.
Only description-free runs reach a return through this skeleton without
raising — the faithful `find_best_match` below surfaces the raises. -/
def findBestMatchAux (variants : List Str) (results : List SearchResult)
    (name : Str) (thr : ℚ) : Option (Nat × SearchResult) :=
  if variants = [] ∨ results = [] then none
  else
    match (selectState variants results name thr).best with
    | none => none
    | some (i, r, s, v) =>
      if s ≥ 70 then
        if gatesOk (selectState variants results name thr).det r.title then
          some (i, { r with variant := v, score := s })
        else none
      else none

/-- A candidate whose raw title escapes the early accessory skip
(united_try.py:2970) but whose combined text still carries an accessory
keyword: scanning it reaches `re.escape` (united_try.py:3027) before any
of the function-local `import re` statements (3760, 4028) has executed,
raising `UnboundLocalError`. -/
def accessoryScanCrash (r : SearchResult) : Bool :=
  ! accessoryTitleCheck r.title &&
    accessory_keywords.any fun kw => subStr kw (normalize_text r.title)

/-- `find_best_match` (united_try.py:2952): empty variants or candidates
return `None` (line 2954) before anything else; with a nonempty source
description every run raises `AttributeError` inside
`calculate_match_score` (reached at line 3101, or unconditionally at
line 3847 in the fallback, whose loop runs whenever no best match was
found); a description-free run raises `UnboundLocalError` when it scans
an accessory-marked candidate (see `accessoryScanCrash`) and otherwise
returns through the selection skeleton. -/
def find_best_match (variants : List Str) (results : List SearchResult)
    (name : Str) (thr : ℚ) : PyResult (Option SearchResult) :=
  if variants = [] ∨ results = [] then .ok none
  else if name = [] then
    if results.any accessoryScanCrash then .raises
    else .ok ((findBestMatchAux variants results name thr).map (·.2))
  else .raises

/-- The candidate list after a call: Python mutates the selected
element's `score`/`variant` fields in place (united_try.py:4068) and
leaves every other element untouched; a raising run propagates the
exception. -/
def findBestMatchPost (variants : List Str) (results : List SearchResult)
    (name : Str) (thr : ℚ) : PyResult (List SearchResult) :=
  if variants = [] ∨ results = [] then .ok results
  else if name = [] then
    if results.any accessoryScanCrash then .raises
    else .ok (match findBestMatchAux variants results name thr with
      | some (i, r') => results.set i r'
      | none => results)
  else .raises

/-! ### Structural lemmas about the selection loops -/

theorem promoteLens_idem (d : Details) :
    promoteLens (promoteLens d) = promoteLens d := by
  unfold promoteLens
  split
  · rename_i h
    simp only [h.2]
    split <;> simp_all
  · rfl

/-- The attribute record threaded through the loops is either the original
one or its (idempotent) `lens_color` promotion. -/
def detOK (od₀ od : Option Details) : Prop :=
  od = od₀ ∨ ∃ d, od₀ = some d ∧ od = some (promoteLens d)

theorem detOK_refl (od₀ : Option Details) : detOK od₀ od₀ := Or.inl rfl

theorem detOK_trans {a b c : Option Details} (h1 : detOK a b)
    (h2 : detOK b c) : detOK a c := by
  rcases h1 with h1 | ⟨d, hd, hb⟩
  · subst h1; exact h2
  · subst hd hb
    rcases h2 with h2 | ⟨d', hd', hc⟩
    · rw [h2]; exact Or.inr ⟨d, rfl, rfl⟩
    · cases hd'
      rw [hc, promoteLens_idem]
      exact Or.inr ⟨d, rfl, rfl⟩

theorem evalVariantTail2_det (d' : Details) (thr : ℚ) (r : SearchResult)
    (ft : Str) (s : ℚ) :
    (evalVariantTail2 d' thr r ft s).2 = some d' := by
  generalize hE : evalVariantTail2 d' thr r ft s = out
  unfold evalVariantTail2 at hE
  repeat' split at hE
  all_goals subst hE
  all_goals rfl

theorem evalVariantTail_det (d : Details) (thr : ℚ) (r : SearchResult)
    (ft : Str) (s : ℚ) :
    (evalVariantTail d thr r ft s).2 = some d ∨
    (evalVariantTail d thr r ft s).2 = some (promoteLens d) := by
  generalize hE : evalVariantTail d thr r ft s = out
  unfold evalVariantTail at hE
  repeat' split at hE
  all_goals subst hE
  all_goals try exact Or.inl rfl
  exact Or.inr (evalVariantTail2_det (promoteLens d) thr r ft s)

theorem detOK_of_tail (d : Details) (thr : ℚ) (r : SearchResult) (ft : Str)
    (s : ℚ) : detOK (some d) (evalVariantTail d thr r ft s).2 := by
  rcases evalVariantTail_det d thr r ft s with h | h
  · exact Or.inl h
  · exact Or.inr ⟨d, rfl, h⟩

theorem evalVariant_det (od : Option Details) (thr : ℚ) (r : SearchResult)
    (v : Str) : detOK od (evalVariant od thr r v).2 := by
  generalize hE : evalVariant od thr r v = out
  unfold evalVariant evalVariantCore at hE
  repeat' split at hE
  all_goals subst hE
  all_goals try exact Or.inl rfl
  all_goals exact detOK_of_tail _ _ _ _ _

theorem acceptStep_cases (thr : ℚ)
    (best : Option (Nat × SearchResult × ℚ × Str)) (i : Nat)
    (r : SearchResult) (det : Option Details) (s : ℚ) (v : Str) :
    acceptStep thr best i r det s v = best ∨
    acceptStep thr best i r det s v = some (i, r, s, v) := by
  generalize hE : acceptStep thr best i r det s v = out
  unfold acceptStep at hE
  repeat' split at hE
  all_goals subst hE
  all_goals simp

/-- The variant loop either keeps the best candidate or replaces it with
the candidate currently under consideration; the threaded record stays in
the promotion chain. -/
theorem variantLoop_inv (thr : ℚ) (i : Nat) (r : SearchResult) :
    ∀ (vs : List Str) (st : MState),
    ((variantLoop thr i r vs st).best = st.best ∨
      ∃ s v, (variantLoop thr i r vs st).best = some (i, r, s, v)) ∧
    detOK st.det (variantLoop thr i r vs st).det := by
  intro vs
  induction vs with
  | nil => exact fun st => ⟨Or.inl rfl, detOK_refl _⟩
  | cons v vs ih =>
    intro st
    have hdet0 := evalVariant_det st.det thr r v
    unfold variantLoop
    rcases hE : evalVariant st.det thr r v with ⟨o, d'⟩
    have hd : detOK st.det d' := by
      have h2 : (evalVariant st.det thr r v).2 = d' := by rw [hE]
      rw [← h2]; exact hdet0
    cases o with
    | brk => exact ⟨Or.inl rfl, hd⟩
    | cont =>
      obtain ⟨hb, hdd⟩ := ih { st with det := d' }
      exact ⟨hb, detOK_trans hd hdd⟩
    | pass s =>
      obtain ⟨hb, hdd⟩ := ih { best := acceptStep thr st.best i r d' s v, det := d' }
      refine ⟨?_, detOK_trans hd hdd⟩
      rcases hb with hb | ⟨s', v', hb⟩
      · dsimp only at hb
        rw [hb]
        rcases acceptStep_cases thr st.best i r d' s v with h | h
        · rw [h]; exact Or.inl rfl
        · rw [h]; exact Or.inr ⟨s, v, rfl⟩
      · exact Or.inr ⟨s', v', hb⟩

/-- The main pass only ever installs, as best, a candidate from the
processed pair list whose title carries no accessory marker; any
best-candidate property `R` sustained by those pairs is an invariant. -/
theorem mainPass_best_inv (variants : List Str) (thr : ℚ)
    (R : Nat → SearchResult → Prop) :
    ∀ (pairs : List (Nat × SearchResult)) (st : MState),
    (∀ p ∈ pairs, accessoryTitleCheck p.2.title = false → R p.1 p.2) →
    (∀ i r s v, st.best = some (i, r, s, v) → R i r) →
    ∀ i r s v, (mainPass variants thr pairs st).best = some (i, r, s, v) →
      R i r := by
  intro pairs
  induction pairs with
  | nil => intro st _ h0; exact h0
  | cons p ps ih =>
    intro st hp h0
    have hstep : ∀ i r s v,
        (mainResultStep variants thr st p).best = some (i, r, s, v) → R i r := by
      intro i r s v hb
      unfold mainResultStep at hb
      split at hb
      · exact h0 i r s v hb
      · rename_i hacc
        obtain ⟨hcase, _⟩ := variantLoop_inv thr p.1 p.2 variants st
        rcases hcase with hc | ⟨s', v', hc⟩
        · exact h0 i r s v (by rw [← hc]; exact hb)
        · rw [hb] at hc
          simp only [Option.some.injEq, Prod.mk.injEq] at hc
          obtain ⟨h1, h2, -⟩ := hc
          subst h1
          subst h2
          exact hp p (List.mem_cons_self p ps) (by simpa using hacc)
    exact ih (mainResultStep variants thr st p)
      (fun q hq => hp q (List.mem_cons_of_mem p hq)) hstep

theorem fallbackTry_det (i : Nat) (r : SearchResult) (v : Str) (st : MState) :
    (fallbackTry i r v st).det = st.det := by
  unfold fallbackTry
  split <;> rfl

theorem fallbackTry_best (i : Nat) (r : SearchResult) (v : Str) (st : MState) :
    (fallbackTry i r v st).best = st.best ∨
    ∃ s, (fallbackTry i r v st).best = some (i, r, s, v) := by
  unfold fallbackTry
  split
  · rename_i s _; exact Or.inr ⟨s, rfl⟩
  · exact Or.inl rfl

theorem fallbackVariantLoop_inv (i : Nat) (r : SearchResult) :
    ∀ (vs : List Str) (st : MState),
    ((fallbackVariantLoop i r vs st).best = st.best ∨
      ∃ s v, (fallbackVariantLoop i r vs st).best = some (i, r, s, v)) ∧
    (fallbackVariantLoop i r vs st).det = st.det := by
  intro vs
  induction vs with
  | nil => exact fun st => ⟨Or.inl rfl, rfl⟩
  | cons v vs ih =>
    intro st
    obtain ⟨hb, hd⟩ := ih (fallbackTry i r v st)
    show ((fallbackVariantLoop i r vs (fallbackTry i r v st)).best = st.best ∨
        ∃ s' v', (fallbackVariantLoop i r vs (fallbackTry i r v st)).best =
          some (i, r, s', v')) ∧
      (fallbackVariantLoop i r vs (fallbackTry i r v st)).det = st.det
    refine ⟨?_, by rw [hd, fallbackTry_det]⟩
    rcases hb with hb | ⟨s', v', hb⟩
    · rw [hb]
      rcases fallbackTry_best i r v st with h | ⟨s, h⟩
      · rw [h]; exact Or.inl rfl
      · rw [h]; exact Or.inr ⟨s, v, rfl⟩
    · exact Or.inr ⟨s', v', hb⟩

theorem fallbackPass_best_inv (variants : List Str)
    (R : Nat → SearchResult → Prop) :
    ∀ (pairs : List (Nat × SearchResult)) (st : MState),
    (∀ p ∈ pairs, R p.1 p.2) →
    (∀ i r s v, st.best = some (i, r, s, v) → R i r) →
    ∀ i r s v, (fallbackPass variants pairs st).best = some (i, r, s, v) →
      R i r := by
  intro pairs
  induction pairs with
  | nil => intro st _ h0; exact h0
  | cons p ps ih =>
    intro st hp h0
    have hstep : ∀ i r s v,
        (fallbackVariantLoop p.1 p.2 variants st).best = some (i, r, s, v) →
        R i r := by
      intro i r s v hb
      obtain ⟨hcase, _⟩ := fallbackVariantLoop_inv p.1 p.2 variants st
      rcases hcase with hc | ⟨s', v', hc⟩
      · exact h0 i r s v (by rw [← hc]; exact hb)
      · rw [hb] at hc
        simp only [Option.some.injEq, Prod.mk.injEq] at hc
        obtain ⟨h1, h2, -⟩ := hc
        subst h1
        subst h2
        exact hp p (List.mem_cons_self p ps)
    exact ih (fallbackVariantLoop p.1 p.2 variants st)
      (fun q hq => hp q (List.mem_cons_of_mem p hq)) hstep

/-- Any property of (index, candidate) pairs holding on the enumerated
input list holds of the selected best. -/
theorem selectState_best_inv (variants : List Str)
    (results : List SearchResult) (name : Str) (thr : ℚ)
    (R : Nat → SearchResult → Prop)
    (hR : ∀ p ∈ results.enum, R p.1 p.2) :
    ∀ i r s v, (selectState variants results name thr).best = some (i, r, s, v) →
      R i r := by
  unfold selectState
  split
  · refine fallbackPass_best_inv variants R (results.enum.take 10) _
      (fun p hp => hR p (List.mem_of_mem_take hp)) ?_
    exact mainPass_best_inv variants thr R results.enum (initState name)
      (fun p hp _ => hR p hp) (by intro i r s v h; simp [initState] at h)
  · exact mainPass_best_inv variants thr R results.enum (initState name)
      (fun p hp _ => hR p hp) (by intro i r s v h; simp [initState] at h)

/-- Inversion of a successful `findBestMatchAux`: the selected best, the
record update and the terminal gate. -/
theorem findBestMatchAux_spec (variants : List Str)
    (results : List SearchResult) (name : Str) (thr : ℚ) (i : Nat)
    (r' : SearchResult)
    (h : findBestMatchAux variants results name thr = some (i, r')) :
    ∃ r s v, (selectState variants results name thr).best = some (i, r, s, v) ∧
      r' = { r with variant := v, score := s } ∧ 70 ≤ s ∧
      gatesOk (selectState variants results name thr).det r.title = true := by
  unfold findBestMatchAux at h
  split at h
  · exact absurd h (by simp)
  · split at h
    · exact absurd h (by simp)
    · rename_i i0 r s v heq
      split at h
      · rename_i hs
        split at h
        · rename_i hg
          simp only [Option.some.injEq, Prod.mk.injEq] at h
          obtain ⟨hi, hr⟩ := h
          subst hi
          exact ⟨r, s, v, heq, hr.symm, hs, hg⟩
        · exact absurd h (by simp)
      · exact absurd h (by simp)

/-! ### Shared concrete inputs for the claim witnesses and counterexamples -/

set_option maxRecDepth 2560

/-- A source description with a significant count (115 > 10). -/
def candyName : Str := "CandyCo | Crunchy Peanut - 115 ct".toList

/-- A candidate whose title states no count at all. -/
def candyCand : SearchResult :=
  ⟨"u".toList, "CandyCo Crunchy Peanut".toList, "r".toList, [], 0, false⟩

/-- A filler candidate for a description-free run. -/
def plainCandA : SearchResult :=
  ⟨"u0".toList, "Other Thing".toList, "r0".toList, [], 0, false⟩

/-- The candidate a description-free run selects. -/
def plainCandB : SearchResult :=
  ⟨"u".toList, "Coco Nut".toList, "r".toList, [], 0, false⟩

/-- `plainCandB` as returned: variant and score rewritten. -/
def plainSelB : SearchResult :=
  ⟨"u".toList, "Coco Nut".toList, "r".toList, "coco nut".toList, 100, false⟩

/-! ### Helper lemmas for the claim theorems -/

/-- Integer-tolerance comparison against a tenth, as the exact rational
comparison (the source computes `int(expected * 0.10)`). -/
theorem nat_le_tenth_iff (n a : Nat) : n ≤ a / 10 ↔ (n : ℚ) ≤ (a : ℚ) / 10 := by
  rw [Nat.le_div_iff_mul_le (by norm_num)]
  rw [le_div_iff₀ (by norm_num : (0 : ℚ) < 10)]
  exact_mod_cast Iff.rfl

/-- Integer-tolerance comparison against fifteen hundredths, as the exact
rational comparison (the source computes `int(expected * 0.15)`). -/
theorem nat_le_fifteen_hundredths_iff (n e : Nat) :
    n ≤ 3 * e / 20 ↔ (n : ℚ) ≤ 3 * (e : ℚ) / 20 := by
  rw [Nat.le_div_iff_mul_le (by norm_num)]
  rw [le_div_iff₀ (by norm_num : (0 : ℚ) < 20)]
  exact_mod_cast Iff.rfl

/-- A whitespace-free prefix runs into the splitter's accumulator. -/
theorem pySplitWsAux_append_nospace :
    ∀ (s rest cur : Str), s.all (fun c => ! isSpaceChar c) = true →
    pySplitWsAux (s ++ rest) cur = pySplitWsAux rest (s.reverse ++ cur) := by
  intro s
  induction s with
  | nil => intro rest cur _; simp
  | cons c cs ih =>
    intro rest cur h
    simp only [List.all_cons, Bool.and_eq_true] at h
    have hc : isSpaceChar c = false := by simpa using h.1
    show pySplitWsAux (c :: (cs ++ rest)) cur =
      pySplitWsAux rest ((c :: cs).reverse ++ cur)
    rw [pySplitWsAux]
    split
    · rename_i hsp
      rw [hc] at hsp
      cases hsp
    · rw [ih rest (c :: cur) h.2]
      congr 1
      simp

/-- Splitting a single nonempty whitespace-free word. -/
theorem pySplitWs_single (w : Str) (hne : w ≠ [])
    (h : w.all (fun c => ! isSpaceChar c) = true) : pySplitWs w = [w] := by
  unfold pySplitWs
  have h2 := pySplitWsAux_append_nospace w [] [] h
  rw [List.append_nil] at h2
  rw [h2]
  unfold pySplitWsAux
  simp [hne]

/-- Splitting a word followed by a space peels off the word. -/
theorem pySplitWs_word_space (w t : Str) (hne : w ≠ [])
    (h : w.all (fun c => ! isSpaceChar c) = true) :
    pySplitWs (w ++ ' ' :: t) = w :: pySplitWs t := by
  unfold pySplitWs
  rw [pySplitWsAux_append_nospace w (' ' :: t) [] h]
  have hsp : isSpaceChar ' ' = true := by decide
  rw [pySplitWsAux]
  simp [hsp, hne]

/-- Every piece of a whitespace split is nonempty and whitespace-free. -/
theorem pySplitWsAux_mem :
    ∀ (s cur : Str), cur.all (fun c => ! isSpaceChar c) = true →
    ∀ w ∈ pySplitWsAux s cur,
      w ≠ [] ∧ w.all (fun c => ! isSpaceChar c) = true := by
  intro s
  induction s with
  | nil =>
    intro cur hcur w hw
    unfold pySplitWsAux at hw
    split at hw
    · simp at hw
    · rename_i hne
      simp only [List.mem_singleton] at hw
      subst hw
      refine ⟨by simpa using hne, by simpa using hcur⟩
  | cons c cs ih =>
    intro cur hcur w hw
    unfold pySplitWsAux at hw
    split at hw
    · split at hw
      · exact ih [] rfl w hw
      · rename_i hne
        rcases List.mem_cons.mp hw with h1 | h2
        · subst h1
          refine ⟨by simpa using hne, by simpa using hcur⟩
        · exact ih [] rfl w h2
    · rename_i hsp
      refine ih (c :: cur) ?_ w hw
      simp only [List.all_cons, hcur, Bool.and_true]
      simpa using hsp

/-- Every token of `pySplitWs` is nonempty and whitespace-free. -/
theorem pySplitWs_mem (s : Str) :
    ∀ w ∈ pySplitWs s, w ≠ [] ∧ w.all (fun c => ! isSpaceChar c) = true :=
  pySplitWsAux_mem s [] rfl

/-- Re-splitting a single-space join of nonempty whitespace-free words
gives the words back. -/
theorem pySplitWs_intercalate :
    ∀ ws : List Str,
    (∀ w ∈ ws, w ≠ [] ∧ w.all (fun c => ! isSpaceChar c) = true) →
    pySplitWs (" ".toList.intercalate ws) = ws := by
  intro ws
  induction ws with
  | nil => intro _; rfl
  | cons w ws ih =>
    intro h
    have h1 := h w (List.mem_cons_self w ws)
    cases ws with
    | nil =>
      have h2 : " ".toList.intercalate [w] = w := by
        simp [List.intercalate]
      rw [h2]
      exact pySplitWs_single w h1.1 h1.2
    | cons w2 ws2 =>
      have h2 : " ".toList.intercalate (w :: w2 :: ws2) =
          w ++ ' ' :: " ".toList.intercalate (w2 :: ws2) := by
        simp [List.intercalate, List.intersperse]
      rw [h2, pySplitWs_word_space w _ h1.1 h1.2]
      rw [ih (fun q hq => h q (List.mem_cons_of_mem _ hq))]

/-- The stripped after-pipe text the model extraction works on. -/
def afterPipe (s : Str) : Str :=
  pyStrip (((pySplitOn s "|".toList).get? 1).getD [])

/-- Transitions and Prizm extraction each exclude every other lens field
(the claims' exclusivity restricted to the first two branches). -/
theorem extractLens_excl (s : Str) :
    ((extractLens s).transitions_color ≠ [] →
      (extractLens s).prizm_color = [] ∧
      (extractLens s).simple_lens_color = [] ∧
      (extractLens s).lens_type = []) ∧
    ((extractLens s).prizm_color ≠ [] →
      (extractLens s).transitions_color = [] ∧
      (extractLens s).simple_lens_color = [] ∧
      (extractLens s).lens_type = []) := by
  generalize hE : extractLens s = li
  simp only [extractLens] at hE
  repeat' split at hE
  all_goals subst hE
  all_goals simp

/-! ### The ten claims -/

/-- C6: with a source count and an extractable candidate count, the count
check passes exactly when the difference is within max(2, 10 % of the
expected count) for counts above 20 and max(2, 15 %) otherwise (the
percentages as the source's `int()` truncation, which the integer
comparison makes equivalent to the exact rational tolerance stated here);
and the claim's two instances: source 115 rejects a stated 48 and passes
a stated 110. -/
theorem count_check_tolerance_iff (d : Details) (ft : Str) (e r : Nat)
    (he : d.count = some e) (hr : extractCount ft = some r) :
    (countCheckMain d ft = true ↔
      (natDist e r : ℚ) ≤
        if e > 20 then max 2 ((e : ℚ) / 10) else max 2 (3 * (e : ℚ) / 20)) ∧
    countCheckMain (extract_product_details "CandyCo Original Peanut 115 ct".toList)
      (normalize_text "CandyCo Original Peanut 48 ct".toList) = false ∧
    countCheckMain (extract_product_details "CandyCo Original Peanut 115 ct".toList)
      (normalize_text "CandyCo Original Peanut 110 ct".toList) = true := by
  refine ⟨?_, by with_unfolding_all decide, by with_unfolding_all decide⟩
  have hc : countCheckMain d ft =
      decide (natDist e r ≤
        if e > 20 then max 2 (e / 10) else max 2 (3 * e / 20)) := by
    unfold countCheckMain
    rw [he, hr]
  rw [hc]
  simp only [decide_eq_true_eq]
  by_cases hgt : e > 20
  · rw [if_pos hgt, if_pos hgt, le_max_iff, le_max_iff]
    exact or_congr (by exact_mod_cast Iff.rfl) (nat_le_tenth_iff _ _)
  · rw [if_neg hgt, if_neg hgt, le_max_iff, le_max_iff]
    exact or_congr (by exact_mod_cast Iff.rfl)
      (nat_le_fifteen_hundredths_iff _ _)

/-- C6 witness: the tolerance equivalence at the claim's own instance
(source count 115, candidate count 110). -/
theorem count_check_tolerance_iff_witness :
    (extract_product_details "CandyCo Original Peanut 115 ct".toList).count =
      some 115 ∧
    extractCount (normalize_text "CandyCo Original Peanut 110 ct".toList) =
      some 110 ∧
    (countCheckMain (extract_product_details "CandyCo Original Peanut 115 ct".toList)
        (normalize_text "CandyCo Original Peanut 110 ct".toList) = true ↔
      (natDist 115 110 : ℚ) ≤
        if 115 > 20 then max 2 ((115 : ℚ) / 10) else max 2 (3 * (115 : ℚ) / 20)) :=
  ⟨by with_unfolding_all decide, by with_unfolding_all decide,
    (count_check_tolerance_iff _ _ 115 110 (by with_unfolding_all decide)
      (by with_unfolding_all decide)).1⟩

set_option linter.unusedVariables false in
/-- C7: of the original claim — a source count above 10 with no
extractable candidate count rejects the candidate — the opposite holds
for the cascade's own count predicates: the main-pass count check passes
such a candidate (united_try.py:3777 only logs), and the terminal count
gate passes a title with no extractable count (united_try.py:4047);
the only consequence is a 30-point penalty inside the score the
traditional branch would compute.  No count-based rejection exists —
though no end-to-end decision is ever reached either, since every run
with a source description raises inside `calculate_match_score`. -/
theorem missing_count_not_rejected (d : Details) (ft title : Str) (e : Nat)
    (he : d.count = some e) (hgt : 10 < e) (hn : extractCount ft = none)
    (hng : extractCountGate (pyLower title) = none) :
    countCheckMain d ft = true ∧ gateCountOk d title = true := by
  constructor
  · unfold countCheckMain
    rw [he, hn]
  · unfold gateCountOk
    rw [he, hng]
    simp

/-- C7 witness: the CandyCo source (count 115) against the countless
candidate title. -/
theorem missing_count_not_rejected_witness :
    countCheckMain (extract_product_details candyName)
      (normalize_text candyCand.title) = true ∧
    gateCountOk (extract_product_details candyName) candyCand.title = true :=
  missing_count_not_rejected _ _ _ 115 (by with_unfolding_all decide)
    (by decide) (by with_unfolding_all decide) (by with_unfolding_all decide)

/-- C7 counterexample: source count 115 (greater than 10), candidate text
with no extractable count — yet both the main-pass count check and the
terminal count gate pass the candidate: the cascade never rejects it on
account of the count. -/
theorem missing_count_not_rejected_cex :
    (extract_product_details candyName).count = some 115 ∧
    extractCount (normalize_text candyCand.title) = none ∧
    countCheckMain (extract_product_details candyName)
      (normalize_text candyCand.title) = true ∧
    gateCountOk (extract_product_details candyName) candyCand.title = true := by
  with_unfolding_all decide

/-- C8: of the original four-way exclusivity, Transitions and Prizm
extraction are each exclusive of every other lens field (and the order
Transitions → Prizm → fallback holds by construction); but the fallback
can populate `simple_lens_color` and `lens_type` together, as
`lens_kinds_transitions_prizm_exclusive_cex` shows. -/
theorem lens_kinds_transitions_prizm_exclusive (s : Str) :
    ((extract_product_details s).transitions_color ≠ [] →
      (extract_product_details s).prizm_color = [] ∧
      (extract_product_details s).simple_lens_color = [] ∧
      (extract_product_details s).lens_type = []) ∧
    ((extract_product_details s).prizm_color ≠ [] →
      (extract_product_details s).transitions_color = [] ∧
      (extract_product_details s).simple_lens_color = [] ∧
      (extract_product_details s).lens_type = []) :=
  extractLens_excl s

/-- C8 witness: a Transitions description populates no other lens
field. -/
theorem lens_kinds_transitions_prizm_exclusive_witness :
    (extract_product_details "Foo Transitions Grey lenses".toList).prizm_color
      = [] ∧
    (extract_product_details
      "Foo Transitions Grey lenses".toList).simple_lens_color = [] ∧
    (extract_product_details "Foo Transitions Grey lenses".toList).lens_type
      = [] :=
  (lens_kinds_transitions_prizm_exclusive
    "Foo Transitions Grey lenses".toList).1 (by with_unfolding_all decide)

/-- C8 counterexample: the simple-color / lens-type fallback populates
two lens-kind fields at once, refuting the claimed mutual exclusivity. -/
theorem lens_kinds_transitions_prizm_exclusive_cex :
    (extract_product_details
      "Foo, Green lenses Polarized".toList).simple_lens_color =
      "green".toList ∧
    (extract_product_details "Foo, Green lenses Polarized".toList).lens_type =
      "polarized".toList := by
  with_unfolding_all decide

/-- C9: of the original claim, the after-pipe model phrase is capped at 4
words (re-truncated to 3) only in the no-dash branch; when the after-pipe
text has a dash the model is everything before the first dash with NO
word cap, so the returned model can exceed 4 words
(`model_cut_and_cap_cex`). -/
theorem model_cut_and_cap (s : Str) (h : subStr "|".toList s = true) :
    (subStr "-".toList (afterPipe s) = true →
      extractModel s =
        normalize_text (pyStrip ((pySplitOn (afterPipe s) "-".toList).headD []))) ∧
    (subStr "-".toList (afterPipe s) = false →
      ∃ p, extractModel s = normalize_text p ∧ (pySplitWs p).length ≤ 4) := by
  have hbody : extractModel s =
      (if subStr "-".toList (afterPipe s) = true then
        normalize_text (pyStrip ((pySplitOn (afterPipe s) "-".toList).headD []))
      else if (pySplitWs (cutAtModelEnd (afterPipe s))).length ≤ 4 then
        normalize_text (cutAtModelEnd (afterPipe s))
      else
        normalize_text (" ".toList.intercalate
          ((pySplitWs (cutAtModelEnd (afterPipe s))).take 3))) := by
    unfold extractModel afterPipe
    rw [if_pos h]
  constructor
  · intro hd
    rw [hbody, if_pos hd]
  · intro hd
    by_cases hlen : (pySplitWs (cutAtModelEnd (afterPipe s))).length ≤ 4
    · exact ⟨cutAtModelEnd (afterPipe s),
        by rw [hbody, if_neg (by simp; exact hd), if_pos hlen], hlen⟩
    · refine ⟨" ".toList.intercalate
        ((pySplitWs (cutAtModelEnd (afterPipe s))).take 3),
        by rw [hbody, if_neg (by simp; exact hd), if_neg hlen], ?_⟩
      rw [pySplitWs_intercalate _
        (fun q hq => pySplitWs_mem _ q (List.mem_of_mem_take hq))]
      simp [List.length_take]

/-- C9 witness: the dash branch at a concrete description. -/
theorem model_cut_and_cap_witness :
    extractModel "BrandA | Alpha Beta - Red".toList =
      normalize_text (pyStrip ((pySplitOn
        (afterPipe "BrandA | Alpha Beta - Red".toList) "-".toList).headD [])) :=
  (model_cut_and_cap "BrandA | Alpha Beta - Red".toList
    (by with_unfolding_all decide)).1 (by with_unfolding_all decide)

/-- C9 counterexample: a piped description whose extracted model has five
words, exceeding the claimed 4-word cap. -/
theorem model_cut_and_cap_cex :
    (pySplitWs (extract_product_details
      "BrandA | alpha beta gamma delta epsilon - Red".toList).model).length
      = 5 := by
  with_unfolding_all decide

/-- C10: whenever `find_best_match` returns a candidate (rather than
`None` or an exception), the returned record is an element of the input
list with only its `score` and `variant` fields rewritten (to the
winning score and the producing variant), and the post-call list
coincides with the input list everywhere except at that element's
index. -/
theorem returned_candidate_is_input_update (variants : List Str)
    (results : List SearchResult) (name : Str) (thr : ℚ) (r' : SearchResult)
    (h : find_best_match variants results name thr = .ok (some r')) :
    ∃ i r s v, results[i]? = some r ∧
      r' = { r with variant := v, score := s } ∧
      findBestMatchPost variants results name thr = .ok (results.set i r') ∧
      ∀ j, j ≠ i → (results.set i r')[j]? = results[j]? := by
  unfold find_best_match at h
  split at h
  · exact absurd h (by simp)
  · split at h
    · rename_i hne hname
      split at h
      · exact absurd h (by simp)
      · rename_i hcrash
        simp only [PyResult.ok.injEq] at h
        rcases Option.map_eq_some'.mp h with ⟨⟨i, r2⟩, haux, hr⟩
        subst hr
        obtain ⟨r, s, v, hbest, hupd, hs, hg⟩ :=
          findBestMatchAux_spec variants results name thr i _ haux
        have hidx : results[i]? = some r := by
          refine selectState_best_inv variants results name thr
            (fun j q => results[j]? = some q) ?_ i r s v hbest
          intro p hp
          rcases p with ⟨j, q⟩
          exact (List.mk_mem_enum_iff_getElem?).mp hp
        have hpost : findBestMatchPost variants results name thr =
            .ok (results.set i r2) := by
          unfold findBestMatchPost
          rw [if_neg hne, if_pos hname, if_neg hcrash, haux]
        refine ⟨i, r, s, v, hidx, hupd, hpost, ?_⟩
        intro j hj
        exact List.getElem?_set_ne (fun he2 => hj he2.symm)
    · exact absurd h (by simp)

/-- C10 witness: a concrete description-free call returns the second
input candidate with score 100 and variant rewritten, and the post-call
list is the input list updated at index 1 only. -/
theorem returned_candidate_is_input_update_witness :
    ∃ i r s v, ([plainCandA, plainCandB])[i]? = some r ∧
      plainSelB = { r with variant := v, score := s } ∧
      findBestMatchPost ["coco nut".toList] [plainCandA, plainCandB] [] 70 =
        .ok ([plainCandA, plainCandB].set i plainSelB) ∧
      ∀ j, j ≠ i → ([plainCandA, plainCandB].set i plainSelB)[j]? =
        ([plainCandA, plainCandB])[j]? :=
  returned_candidate_is_input_update ["coco nut".toList]
    [plainCandA, plainCandB] [] 70 plainSelB (by with_unfolding_all decide)

end NPD
